import Mathlib

/-! Tunnel Session Engine (TomLisUA/Xray-core, `tun-*.go`)

A shallow embedding of the client-side Layer-3 tunnel: the session-opening
handshake, the transport dialer `dialVLESSWS`, the two packet pumps
`forwardTUNtoVLESS` / `forwardVLESStoTUN`, the supervising retry loop
`startL3Tunnel`, the receive loop of `tun-simpl.go`, and the host-name and
routing set-up of each program.

Bytes are natural numbers below 256, byte slices are `List Nat`.
Blocking calls take their outcome from an explicit environment (a script of
results); every function returns the list of I/O events it performed.
-/

namespace Tun

/-! ## Handshake messages -/

/-- The 16 identifier bytes written in `tun-e3372h-stable.go`, `tun-e3372h-debug.go`
and `tun-simple-handshake.go`. -/
def clientUUID : List Nat :=
  [0xd4, 0x33, 0x08, 0xce, 0x0c, 0xab, 0x46, 0x9d,
   0x8f, 0x4e, 0x87, 0xc5, 0xa9, 0xd8, 0xe2, 0xbf]

/-- The literal `vlessHandshake` of `dialVLESSWS` in `tun-e3372h-stable.go` (lines 170-189). -/
def stableHandshake : List Nat :=
  [ -- UUID
    0xd4, 0x33, 0x08, 0xce, 0x0c, 0xab, 0x46, 0x9d,
    0x8f, 0x4e, 0x87, 0xc5, 0xa9, 0xd8, 0xe2, 0xbf,
    -- Version
    0x00,
    -- Encryption
    0x00, 0x00, 0x00, 0x00, 0x00, 0x00, 0x00, 0x00,
    0x00, 0x00, 0x00, 0x00, 0x00, 0x00, 0x00, 0x00,
    -- Reserved
    0x00,
    -- Command
    0x03,
    -- Port
    0x00, 0x00,
    -- Address type
    0x01,
    -- Address
    0x00, 0x00, 0x00, 0x00 ]

/-- The function `buildVLESSHandshake` of `tun-modem.go` (lines 214-225):
`make([]byte, 16+1+16+1+2+1+1)` followed by six indexed stores. -/
def buildVLESSHandshake : List Nat :=
  let handshake := List.replicate (16+1+16+1+2+1+1) 0
  let handshake := handshake.set 16 0x00
  let handshake := handshake.set 33 0x00
  let handshake := handshake.set 34 0x03
  let handshake := handshake.set 35 0x00
  let handshake := handshake.set 36 0x00
  let handshake := handshake.set 37 0x01
  handshake

/-- The literal `vlessHandshake` of `dialVLESSWS` in `tun-android.go` (lines 166-174);
`tun-optimized.go` (lines 191-199) has the same literal. -/
def androidHandshake : List Nat :=
  [ 0, 0, 0, 0, 0, 0, 0, 0, 0, 0, 0, 0, 0, 0, 0, 0, -- UUID
    0x00, -- Version
    0, 0, 0, 0, 0, 0, 0, 0, 0, 0, 0, 0, 0, 0, 0, 0, -- Encryption
    0x00, -- Reserved
    0x03, 0x00, -- Command
    0x00, 0x00, -- Port
    0x01 ] -- Address type

/-- The literal `vlessHandshake` of `dialVLESSWS` in `tun-e3372h-debug.go` (lines 212-220). -/
def debugHandshake : List Nat :=
  [ 0xd4, 0x33, 0x08, 0xce, 0x0c, 0xab, 0x46, 0x9d, 0x8f, 0x4e, 0x87, 0xc5, 0xa9, 0xd8, 0xe2, 0xbf,
    0x00,
    0, 0, 0, 0, 0, 0, 0, 0, 0, 0, 0, 0, 0, 0, 0, 0,
    0x00,
    0x03, 0x00,
    0x00, 0x00,
    0x01 ]

/-- The literal `uuid` that `dialVLESSWS` of `tun-simple-handshake.go` sends (lines 170-173). -/
def simpleHandshake : List Nat :=
  [ 0xd4, 0x33, 0x08, 0xce, 0x0c, 0xab, 0x46, 0x9d,
    0x8f, 0x4e, 0x87, 0xc5, 0xa9, 0xd8, 0xe2, 0xbf ]

/-- The fields of a handshake message (spec section 3). -/
structure HandshakeFields where
  clientID : List Nat
  version : Nat
  encryption : List Nat
  reserved : Nat
  command : Nat
  port : Nat
  addrType : Nat
  address : List Nat
  deriving DecidableEq, Repr

/-- Well-formed field values: 16 + 16 + 4 bytes in the byte strings, every
value within the width of its field. -/
def HandshakeFields.Valid (f : HandshakeFields) : Prop :=
  f.clientID.length = 16 ∧ f.encryption.length = 16 ∧ f.address.length = 4 ∧
  f.version < 256 ∧ f.reserved < 256 ∧ f.command < 256 ∧ f.port < 65536 ∧ f.addrType < 256

/-- Encoder for the canonical layout 16+1+16+1+1+2+1+4 of spec section 3
(the port is big-endian). -/
def encodeHandshake (f : HandshakeFields) : List Nat :=
  f.clientID ++ [f.version] ++ f.encryption ++
    [f.reserved, f.command, f.port / 256 % 256, f.port % 256, f.addrType] ++ f.address

/-- Decoder reading the canonical layout at its fixed offsets; it rejects
every input that is not 42 bytes long. -/
def decodeHandshake (bs : List Nat) : Option HandshakeFields :=
  if bs.length = 42 then
    some { clientID := bs.take 16
           version := bs.getD 16 0
           encryption := (bs.drop 17).take 16
           reserved := bs.getD 33 0
           command := bs.getD 34 0
           port := bs.getD 35 0 * 256 + bs.getD 36 0
           addrType := bs.getD 37 0
           address := (bs.drop 38).take 4 }
  else none

/-- Two lower-case hexadecimal digits of a byte. -/
def hexByte (b : Nat) : String :=
  String.mk [Nat.digitChar (b / 16 % 16), Nat.digitChar (b % 16)]

/-- Hexadecimal rendering of a byte string. -/
def hexBytes (bs : List Nat) : String :=
  String.join (bs.map hexByte)

/-- The textual 8-4-4-4-12 form of a 16-byte identifier. -/
def uuidString (bs : List Nat) : String :=
  hexBytes (bs.take 4) ++ "-" ++ hexBytes ((bs.drop 4).take 2) ++ "-" ++
    hexBytes ((bs.drop 6).take 2) ++ "-" ++ hexBytes ((bs.drop 8).take 2) ++ "-" ++
    hexBytes (bs.drop 10)

/-- The field values the handshake of `tun-e3372h-stable.go` is documented to carry. -/
def stableFields : HandshakeFields :=
  { clientID := clientUUID
    version := 0
    encryption := List.replicate 16 0
    reserved := 0
    command := 3
    port := 0
    addrType := 1
    address := [0, 0, 0, 0] }

/-- The positional layout shared by the 38- and 42-byte handshakes: version
`0x00` at offset 16, zero encryption selector at 17..32, reserved `0x00` at 33,
one-byte command `0x03` at 34, big-endian port at 35..36, address type `0x01`
at 37. -/
def FixedOffsets (port : Nat) (bs : List Nat) : Prop :=
  bs.get? 16 = some 0x00 ∧
  (bs.drop 17).take 16 = List.replicate 16 0 ∧
  bs.get? 33 = some 0x00 ∧
  bs.get? 34 = some 0x03 ∧
  bs.get? 35 = some (port / 256 % 256) ∧ bs.get? 36 = some (port % 256) ∧
  bs.get? 37 = some 0x01

instance (port : Nat) (bs : List Nat) : Decidable (FixedOffsets port bs) := by
  unfold FixedOffsets; infer_instance

/-- The layout of the 39-byte handshakes (`tun-android.go` and its copies):
the same bytes up to offset 34, then a second command byte `0x00` at 35, the
big-endian port at 36..37 and the address type `0x01` at 38. -/
def ShiftedOffsets (port : Nat) (bs : List Nat) : Prop :=
  bs.get? 16 = some 0x00 ∧
  (bs.drop 17).take 16 = List.replicate 16 0 ∧
  bs.get? 33 = some 0x00 ∧
  bs.get? 34 = some 0x03 ∧ bs.get? 35 = some 0x00 ∧
  bs.get? 36 = some (port / 256 % 256) ∧ bs.get? 37 = some (port % 256) ∧
  bs.get? 38 = some 0x01

instance (port : Nat) (bs : List Nat) : Decidable (ShiftedOffsets port bs) := by
  unfold ShiftedOffsets; infer_instance

/-! ## Go strings -/

/-- A Go string: its bytes. `len` is the number of bytes. -/
abbrev GoString := List Nat

/-- The bytes of an ASCII string literal. -/
def ascii (s : String) : GoString := s.toList.map Char.toNat

/-- The slice expression `s[:len(s)-cut]`: defined when `len(s)-cut` is not
negative, otherwise the Go runtime panics (slice bounds out of range). -/
def sliceTo (s : GoString) (cut : Nat) : Option GoString :=
  if cut ≤ s.length then some (s.take (s.length - cut)) else none

/-! ## Program variants -/

/-- What differs between the copies of the tunnel program. -/
structure Variant where
  /-- Is `some c` when `dialVLESSWS` sets `ServerName: target[:len(target)-c]`,
  `none` when it sets `InsecureSkipVerify: true` instead -/
  serverNameCut : Option Nat
  /-- the text before `%s` in the format of `wsURL` -/
  scheme : GoString
  /-- the text after `%s` in the format of `wsURL` -/
  path : GoString
  /-- the first frame `dialVLESSWS` writes -/
  handshake : List Nat
  /-- whether `dialVLESSWS` reads one server frame before returning -/
  awaitAck : Bool
  /-- the size of the buffer of `forwardTUNtoVLESS` -/
  bufSize : Nat
  /-- the seconds `startL3Tunnel` sleeps after closing a session -/
  teardownSleep : Nat

/-- The program `tun-modem.go`. -/
def tunModem : Variant :=
  { serverNameCut := some 4, scheme := ascii "wss://", path := ascii "/vless",
    handshake := buildVLESSHandshake, awaitAck := false, bufSize := 1500, teardownSleep := 1 }

/-- The program `tun-e3372h-stable.go`. -/
def tunE3372hStable : Variant :=
  { serverNameCut := none, scheme := ascii "ws://", path := ascii "/tun",
    handshake := stableHandshake, awaitAck := true, bufSize := 2048, teardownSleep := 2 }

/-- The program `tun-android.go`. -/
def tunAndroid : Variant :=
  { serverNameCut := some 4, scheme := ascii "wss://", path := ascii "/vless",
    handshake := androidHandshake, awaitAck := false, bufSize := 2048, teardownSleep := 1 }

/-- The program `tun-optimized.go`. -/
def tunOptimized : Variant :=
  { serverNameCut := some 4, scheme := ascii "wss://", path := ascii "/vless",
    handshake := androidHandshake, awaitAck := false, bufSize := 2048, teardownSleep := 1 }

/-- The program `tun-e3372h-debug.go`. -/
def tunE3372hDebug : Variant :=
  { serverNameCut := none, scheme := ascii "ws://", path := ascii "/tun",
    handshake := debugHandshake, awaitAck := false, bufSize := 2048, teardownSleep := 1 }

/-- The program `tun-simple-handshake.go`. -/
def tunSimpleHandshake : Variant :=
  { serverNameCut := none, scheme := ascii "ws://", path := ascii "/tun",
    handshake := simpleHandshake, awaitAck := false, bufSize := 2048, teardownSleep := 2 }

/-- The six programs with a `dialVLESSWS` / `startL3Tunnel` pair. -/
def allVariants : List Variant :=
  [tunModem, tunE3372hStable, tunAndroid, tunOptimized, tunE3372hDebug, tunSimpleHandshake]

/-- The device MTU passed to `tun.New` in every program. -/
def mtu : Nat := 1500

/-! ## I/O events and environments -/

/-- The result of `conn.Read(buf)` on the plain connection of `tun-simpl.go`. -/
inductive ConnRead where
  /-- bytes were received -/
  | data (bytes : List Nat)
  /-- the read deadline passed: a `net.Error` whose `Timeout()` is true -/
  | timeout
  /-- any other error -/
  | error
  deriving DecidableEq, Repr

/-- One observable action of a goroutine. -/
inductive Event where
  /-- The call `dialer.Dial(wsURL, headers)` and whether the upgrade succeeded -/
  | dial (url : GoString) (ok : Bool)
  /-- The call `conn.WriteMessage(websocket.BinaryMessage, payload)` and whether it succeeded -/
  | wsWrite (payload : List Nat) (ok : Bool)
  /-- The call `conn.ReadMessage()`: the frame received, or `none` for an error -/
  | wsRead (res : Option (List Nat))
  /-- The call `conn.Close()` -/
  | wsClose
  /-- The call `tunIface.Read(buf)`: the packet the device delivered, or `none` for an error -/
  | tunRead (res : Option (List Nat))
  /-- The call `tunIface.Write(payload)` and whether it succeeded -/
  | tunWrite (payload : List Nat) (ok : Bool)
  /-- The call `time.Sleep(seconds * time.Second)` -/
  | sleep (seconds : Nat)
  /-- The statement `go forwardTUNtoVLESS(ctx, tunIface, conn)` -/
  | spawn
  /-- The call `conn.SetReadDeadline(time.Now().Add(seconds * time.Second))` -/
  | setReadDeadline (seconds : Nat)
  /-- The call `conn.Read(buf)` of `tun-simpl.go` and its result -/
  | connRead (res : ConnRead)
  deriving DecidableEq, Repr

/-- How a call ended. -/
inductive Status where
  /-- the function returned -/
  | returned
  /-- the function has not returned: it waits in a blocking call for which the
  environment holds no further outcome -/
  | running
  /-- the goroutine panicked -/
  | panicked
  deriving DecidableEq, Repr

/-- The result of `dialVLESSWS`. -/
inductive DialResult where
  /-- The statement `return conn, nil` -/
  | conn
  /-- The statement `return nil, err` -/
  | err
  /-- run-time panic while evaluating the slice expression -/
  | panic
  deriving DecidableEq, Repr

/-- The outcomes of the blocking calls of one `dialVLESSWS` call. -/
structure DialEnv where
  /-- Whether `dialer.Dial` succeeds -/
  upgradeOk : Bool
  /-- the `WriteMessage` of the handshake succeeds -/
  writeOk : Bool
  /-- the result of the `ReadMessage` for the server response (`none`: error) -/
  ack : Option (List Nat)

/-- The environment of one iteration of the loop of `startL3Tunnel`. -/
structure Attempt where
  dial : DialEnv
  /-- the results of the successive `conn.ReadMessage()` calls on the session
  (`none`: error); after the last one the call blocks -/
  reads : List (Option (List Nat))
  /-- whether the `j`-th `tunIface.Write` of the session succeeds -/
  tunOk : Nat → Bool

/-! ## The dialer -/

/-- The function `dialVLESSWS` (`tun-modem.go` 186-212, `tun-e3372h-stable.go` 152-205,
and the copies): the result and the events on the connection it opens. -/
def dialVLESSWS (v : Variant) (target : GoString) (d : DialEnv) : DialResult × List Event :=
  match v.serverNameCut.map (sliceTo target) with
  | some none => (.panic, [])
  | _ =>
    let wsURL := v.scheme ++ target ++ v.path
    if !d.upgradeOk then (.err, [.dial wsURL false])
    else if !d.writeOk then
      (.err, [.dial wsURL true, .wsWrite v.handshake false, .wsClose])
    else if v.awaitAck then
      match d.ack with
      | none => (.err, [.dial wsURL true, .wsWrite v.handshake true, .wsRead none, .wsClose])
      | some response =>
        (.conn, [.dial wsURL true, .wsWrite v.handshake true, .wsRead (some response)])
    else (.conn, [.dial wsURL true, .wsWrite v.handshake true])

/-! ## The pumps -/

/-- The call `n, err := tunIface.Read(buf)` when the device delivers packet `p`:
the bytes are copied to the front of `buf`, `n` is the number copied. -/
def tunReadInto (buf p : List Nat) : Nat × List Nat :=
  let n := min p.length buf.length
  (n, p.take n ++ buf.drop n)

/-- The loop of `forwardTUNtoVLESS` (`tun-modem.go` 229-244). `ctx t` tells whether
`ctx.Done()` is ready after `t` actions, `wsOk j` whether the `j`-th
`WriteMessage` succeeds, `reads` lists the results of the device reads. -/
def forwardTUNtoVLESSLoop (ctx : Nat → Bool) (wsOk : Nat → Bool) :
    List (Option (List Nat)) → List Nat → Nat → Nat → List Event × Status
  | [], _, t, _ => if ctx t then ([], .returned) else ([], .running)
  | none :: _, _, t, _ => if ctx t then ([], .returned) else ([.tunRead none], .returned)
  | some p :: rest, buf, t, j =>
    if ctx t then ([], .returned)
    else
      let r := tunReadInto buf p
      let frame := r.2.take r.1
      if wsOk j then
        let k := forwardTUNtoVLESSLoop ctx wsOk rest r.2 (t + 2) (j + 1)
        (.tunRead (some p) :: .wsWrite frame true :: k.1, k.2)
      else ([.tunRead (some p), .wsWrite frame false], .returned)

/-- The function `forwardTUNtoVLESS`: `buf := make([]byte, bufSize)`, then the loop. -/
def forwardTUNtoVLESS (v : Variant) (ctx : Nat → Bool) (wsOk : Nat → Bool)
    (reads : List (Option (List Nat))) : List Event × Status :=
  forwardTUNtoVLESSLoop ctx wsOk reads (List.replicate v.bufSize 0) 0 0

/-- The function `forwardVLESStoTUN` (`tun-modem.go` 247-264), started after `t`
actions of its goroutine and `j` device writes. -/
def forwardVLESStoTUN (ctx : Nat → Bool) (tunOk : Nat → Bool) :
    List (Option (List Nat)) → Nat → Nat → List Event × Status
  | [], t, _ => if ctx t then ([], .returned) else ([], .running)
  | none :: _, t, _ => if ctx t then ([], .returned) else ([.wsRead none], .returned)
  | some packet :: rest, t, j =>
    if ctx t then ([], .returned)
    else if tunOk j then
      let k := forwardVLESStoTUN ctx tunOk rest (t + 2) (j + 1)
      (.wsRead (some packet) :: .tunWrite packet true :: k.1, k.2)
    else ([.wsRead (some packet), .tunWrite packet false], .returned)

/-- The payloads of the transport frames written in a trace. -/
def wsFrames : List Event → List (List Nat)
  | [] => []
  | .wsWrite p _ :: es => p :: wsFrames es
  | _ :: es => wsFrames es

/-- The arguments of the device writes in a trace. -/
def tunWrites : List Event → List (List Nat)
  | [] => []
  | .tunWrite p _ :: es => p :: tunWrites es
  | _ :: es => tunWrites es

/-- The number of `conn.ReadMessage()` calls in a trace. -/
def wsReadCount : List Event → Nat
  | [] => 0
  | .wsRead _ :: es => wsReadCount es + 1
  | _ :: es => wsReadCount es

/-- The trace of relaying the packets `ps` from the device to the transport one by
one: a device read, then a successful frame write, for each. -/
def relayedPackets : List (List Nat) → List Event
  | [] => []
  | p :: ps => .tunRead (some p) :: .wsWrite p true :: relayedPackets ps

/-- The trace of delivering the frames `fs` from the transport to the device one by
one: a frame read, then a successful device write, for each. -/
def deliveredFrames : List (List Nat) → List Event
  | [] => []
  | f :: fs => .wsRead (some f) :: .tunWrite f true :: deliveredFrames fs

/-! ## The supervisor -/

/-- The function `startL3Tunnel` (`tun-modem.go` 160-184 and the copies), run from
its `t`-th action on, its next iteration being number `i`. Every event carries
the number of the iteration (the session) it belongs to. The events of the
spawned `forwardTUNtoVLESS` belong to another goroutine and are not in this
trace. -/
def startL3Tunnel (v : Variant) (ctx : Nat → Bool) (target : GoString) :
    List Attempt → Nat → Nat → List (Nat × Event) × Status
  | [], t, _ => if ctx t then ([], .returned) else ([], .running)
  | a :: rest, t, i =>
    if ctx t then ([], .returned)
    else
      let d := dialVLESSWS v target a.dial
      match d.1 with
      | .panic => (d.2.map (Prod.mk i), .panicked)
      | .err =>
        let k := startL3Tunnel v ctx target rest (t + d.2.length + 1) (i + 1)
        (d.2.map (Prod.mk i) ++ (i, .sleep 5) :: k.1, k.2)
      | .conn =>
        let pump := forwardVLESStoTUN ctx a.tunOk a.reads (t + d.2.length + 1) 0
        match pump.2 with
        | .returned =>
          let k := startL3Tunnel v ctx target rest
            (t + d.2.length + 1 + pump.1.length + 2) (i + 1)
          (d.2.map (Prod.mk i) ++ (i, .spawn) :: (pump.1.map (Prod.mk i) ++
            (i, .wsClose) :: (i, .sleep v.teardownSleep) :: k.1), k.2)
        | s => (d.2.map (Prod.mk i) ++ (i, .spawn) :: pump.1.map (Prod.mk i), s)

/-- An action of `forwardVLESStoTUN`. -/
def Event.isRelayStep : Event → Bool
  | .wsRead _ => true
  | .tunWrite _ _ => true
  | _ => false

/-- The steps the supervisor loop itself takes. -/
inductive SupStep where
  /-- a dial attempt -/
  | dial
  /-- a wait of the given number of seconds -/
  | wait (seconds : Nat)
  /-- the start of the pumps on a session -/
  | relay
  deriving DecidableEq, Repr

/-- The supervisor step an event stands for, if any: `dialer.Dial` is a dial
attempt, `time.Sleep` a wait, the `go` statement the start of the pumps. -/
def Event.supStep : Event → Option SupStep
  | .dial _ _ => some .dial
  | .sleep s => some (.wait s)
  | .spawn => some .relay
  | _ => none

/-- The supervisor steps of a trace, in order. -/
def supSteps (tr : List (Nat × Event)) : List SupStep :=
  tr.filterMap fun e => e.2.supStep

/-- The steps of `k` failed dial attempts, each followed by a wait of `d` seconds. -/
def retrySteps (d : Nat) : Nat → List SupStep
  | 0 => []
  | k + 1 => .dial :: .wait d :: retrySteps d k

/-! ## The pump of `tun-simpl.go` -/

/-- The loop `Forward VLESS → TUN` of `handleTUNTraffic` (`tun-simpl.go` 236-260):
at each turn the read deadline is set one second ahead, then `conn.Read(buf)`
is called; a timeout goes round again, any other error returns, data is written
to the device. `reads` lists the results of the successive reads. -/
def handleTUNTrafficLoop (ctx : Nat → Bool) (tunOk : Nat → Bool) :
    List ConnRead → List Nat → Nat → Nat → List Event × Status
  | [], _, t, _ => if ctx t then ([], .returned) else ([.setReadDeadline 1], .running)
  | .timeout :: rest, buf, t, j =>
    if ctx t then ([], .returned)
    else
      let k := handleTUNTrafficLoop ctx tunOk rest buf (t + 2) j
      (.setReadDeadline 1 :: .connRead .timeout :: k.1, k.2)
  | .error :: _, _, t, _ =>
    if ctx t then ([], .returned) else ([.setReadDeadline 1, .connRead .error], .returned)
  | .data p :: rest, buf, t, j =>
    if ctx t then ([], .returned)
    else
      let r := tunReadInto buf p
      let packet := r.2.take r.1
      if tunOk j then
        let k := handleTUNTrafficLoop ctx tunOk rest r.2 (t + 3) (j + 1)
        (.setReadDeadline 1 :: .connRead (.data p) :: .tunWrite packet true :: k.1, k.2)
      else ([.setReadDeadline 1, .connRead (.data p), .tunWrite packet false], .returned)

/-- Whether every transport read of a trace (`conn.ReadMessage()` or `conn.Read`)
comes right after a `SetReadDeadline`; `armed` tells whether the action before
the trace was one. -/
def readsBoundedFrom (armed : Bool) : List Event → Bool
  | [] => true
  | .setReadDeadline _ :: es => readsBoundedFrom true es
  | .wsRead _ :: es => armed && readsBoundedFrom false es
  | .connRead _ :: es => armed && readsBoundedFrom false es
  | _ :: es => readsBoundedFrom false es

/-- Every transport read of the trace is preceded by a `SetReadDeadline`. -/
def readsBounded (es : List Event) : Bool := readsBoundedFrom false es

/-! ## Host names and routes -/

/-- The `ServerName` that `dialVLESSWS` puts into the TLS configuration: `none`
when the variant sets none, `some none` when the slice expression panics. -/
def serverName (v : Variant) (target : GoString) : Option (Option GoString) :=
  v.serverNameCut.map (sliceTo target)

/-- An IPv4 route destination: the address as a 32-bit number and the number of
leading bits that count. -/
structure Cidr where
  addr : Nat
  bits : Nat
  deriving DecidableEq, Repr

/-- Whether the 32-bit address `ip` lies in the destination. -/
def Cidr.contains (c : Cidr) (ip : Nat) : Bool :=
  decide (ip / 2 ^ (32 - c.bits) = c.addr / 2 ^ (32 - c.bits))

/-- A non-empty string of decimal digits as a number. -/
def parseDecimal (s : List Nat) : Option Nat :=
  if s = [] then none
  else s.foldl (fun acc c => acc.bind fun n =>
    if 48 ≤ c ∧ c ≤ 57 then some (n * 10 + (c - 48)) else none) (some 0)

/-- The pieces of a byte string between the occurrences of `sep`. -/
def splitOn (sep : Nat) : List Nat → List (List Nat)
  | [] => [[]]
  | c :: cs =>
    if c = sep then [] :: splitOn sep cs
    else
      match splitOn sep cs with
      | [] => [[c]]
      | w :: ws => (c :: w) :: ws

/-- The reading of the text `a.b.c.d/n` as a route destination (the argument
given to `route.MustParseAddr` and to `ip route add`). -/
def parseCidr (s : GoString) : Option Cidr :=
  match splitOn 47 s with
  | [quad, n] =>
    match (splitOn 46 quad).map parseDecimal, parseDecimal n with
    | [some a, some b, some c, some d], some n =>
      if a < 256 ∧ b < 256 ∧ c < 256 ∧ d < 256 ∧ n ≤ 32 then
        some ⟨((a * 256 + b) * 256 + c) * 256 + d, n⟩
      else none
    | _, _ => none
  | _ => none

/-- The two destinations every program routes through the tunnel device. -/
def tunRouteTexts : List GoString := [ascii "0.0.0.0/1", ascii "128.0.0.0/1"]

/-- One action on the name service or the routing table. -/
inductive RouteOp where
  /-- The call `route.New()`, which only creates the handle `r` -/
  | newHandle
  /-- The call `net.ResolveIPAddr("ip", host)` -/
  | resolve (host : GoString)
  /-- Deleting the route to `dest` through the gateway `via` -/
  | delVia (dest via : GoString)
  /-- Adding a route to `dest` through the gateway `via` -/
  | addVia (dest via : GoString)
  /-- Adding routes to the destinations `dests` through the device `dev`, in one request -/
  | addDev (dests : List GoString) (dev : GoString)
  deriving DecidableEq, Repr

/-- Whether the action reaches the network or changes the routing table. -/
def RouteOp.touchesNetwork : RouteOp → Bool
  | .newHandle => false
  | _ => true

/-- How a set-up function ended. -/
inductive SetupResult where
  /-- it returned `nil` -/
  | ok
  /-- it returned an error, or `main` ended in `log.Fatal` -/
  | err
  /-- run-time panic while evaluating the slice expression -/
  | panic
  deriving DecidableEq, Repr

/-- The outcomes of the calls made while the routes are set up. -/
structure RouteEnv where
  /-- Whether `route.New()` succeeds -/
  newOk : Bool
  /-- the address text `net.ResolveIPAddr` yields (`none`: error) -/
  resolved : Option GoString
  /-- whether adding the host route succeeds -/
  hostAddOk : Bool
  /-- whether adding the tunnel routes succeeds -/
  tunAddOk : Bool
  /-- whether `setupTUN()` succeeds -/
  tunUp : Bool

/-- The function `setupRouting` of `tun-modem.go` (119-153) and `tun-optimized.go`
(123-151), which differ in the device name `ifName` only; the gateway is
`192.168.1.1` in both. -/
def setupRouting (ifName : GoString) (vpsHost : GoString) (env : RouteEnv) :
    SetupResult × List RouteOp :=
  if !env.newOk then (.err, [.newHandle])
  else
    match sliceTo vpsHost 4 with
    | none => (.panic, [.newHandle])
    | some host =>
      match env.resolved with
      | none => (.err, [.newHandle, .resolve host])
      | some vpsIP =>
        let hostRoute := RouteOp.addVia (vpsIP ++ ascii "/32") (ascii "192.168.1.1")
        if !env.hostAddOk then (.err, [.newHandle, .resolve host, hostRoute])
        else
          (if env.tunAddOk then .ok else .err,
            [.newHandle, .resolve host, hostRoute, .addDev tunRouteTexts ifName])

/-- The function `setupAndroidRouting` of `tun-android.go` (110-123); the results of
the three `ip route add` commands are ignored. -/
def setupAndroidRouting (vpsHost : GoString) (env : RouteEnv) : SetupResult × List RouteOp :=
  match sliceTo vpsHost 4 with
  | none => (.panic, [])
  | some host =>
    match env.resolved with
    | none => (.err, [.resolve host])
    | some vpsIP =>
      (.ok, [.resolve host, .addVia vpsIP (ascii "192.168.24.1"),
        .addDev [ascii "0.0.0.0/1"] (ascii "tun-android"),
        .addDev [ascii "128.0.0.0/1"] (ascii "tun-android")])

/-- The function `fixE3372HRouting` of `tun-e3372h-stable.go` (71-74). -/
def fixE3372HRouting (vpsIP : GoString) : List RouteOp :=
  [.delVia vpsIP (ascii "192.168.24.1"), .addVia vpsIP (ascii "10.64.64.1")]

/-- The function `addTUNRoutes` of `tun-e3372h-stable.go` (76-79). -/
def addTUNRoutes : List RouteOp :=
  [.addDev [ascii "0.0.0.0/1"] (ascii "tun-e3372h"),
    .addDev [ascii "128.0.0.0/1"] (ascii "tun-e3372h")]

/-- The function `setupSimpleRouting` of `tun-e3372h-debug.go` (154-168). -/
def setupSimpleRouting (_vpsIP : GoString) : List RouteOp :=
  [.addDev [ascii "0.0.0.0/1"] (ascii "tun-e3372h"),
    .addDev [ascii "128.0.0.0/1"] (ascii "tun-e3372h")]

/-- The name-service and routing actions of `main` in `tun-e3372h-stable.go` (46-62)
and `tun-simple-handshake.go` (46-62): resolve `vpsTarget[:len(vpsTarget)-5]`,
`fixE3372HRouting`, `setupTUN`, `addTUNRoutes`. -/
def mainE3372hStable (vpsTarget : GoString) (env : RouteEnv) : SetupResult × List RouteOp :=
  match sliceTo vpsTarget 5 with
  | none => (.panic, [])
  | some host =>
    match env.resolved with
    | none => (.err, [.resolve host])
    | some vpsIP =>
      if !env.tunUp then (.err, .resolve host :: fixE3372HRouting vpsIP)
      else (.ok, .resolve host :: (fixE3372HRouting vpsIP ++ addTUNRoutes))

/-- The name-service and routing actions of `main` in `tun-e3372h-debug.go` (49-67):
resolve `vpsTarget[:len(vpsTarget)-5]`, `setupTUN`, `setupSimpleRouting`. -/
def mainE3372hDebug (vpsTarget : GoString) (env : RouteEnv) : SetupResult × List RouteOp :=
  match sliceTo vpsTarget 5 with
  | none => (.panic, [])
  | some host =>
    match env.resolved with
    | none => (.err, [.resolve host])
    | some vpsIP =>
      if !env.tunUp then (.err, [.resolve host])
      else (.ok, .resolve host :: setupSimpleRouting vpsIP)

/-- A program: its tunnel engine and the routing actions of its bring-up. -/
structure Program where
  variant : Variant
  routing : GoString → RouteEnv → SetupResult × List RouteOp

/-- The six programs with their routing set-up. -/
def programs : List Program :=
  [⟨tunModem, setupRouting (ascii "tun-l3")⟩,
    ⟨tunE3372hStable, mainE3372hStable⟩,
    ⟨tunAndroid, setupAndroidRouting⟩,
    ⟨tunOptimized, setupRouting (ascii "tun-e3372h")⟩,
    ⟨tunE3372hDebug, mainE3372hDebug⟩,
    ⟨tunSimpleHandshake, mainE3372hStable⟩]

/-- Whether the action requests the host route of the address `vpsIP`: a route
through a gateway whose destination is that address, written as it is or with
the mask `/32`. -/
def RouteOp.isHostRouteFor (vpsIP : GoString) : RouteOp → Bool
  | .addVia dest _ => dest == vpsIP || dest == vpsIP ++ ascii "/32"
  | _ => false

/-- Whether every route through a device in the trace comes after the request
of the host route of the address `vpsIP`; `seen` tells whether that request
came before the trace. -/
def hostRouteFirstFrom (vpsIP : GoString) (seen : Bool) : List RouteOp → Bool
  | [] => true
  | .addVia dest via :: ops =>
    hostRouteFirstFrom vpsIP (seen || (RouteOp.addVia dest via).isHostRouteFor vpsIP) ops
  | .addDev _ _ :: ops => seen && hostRouteFirstFrom vpsIP seen ops
  | _ :: ops => hostRouteFirstFrom vpsIP seen ops

/-- The host route of the relay address `vpsIP` is requested before any tunnel
route. -/
def hostRouteFirst (vpsIP : GoString) (ops : List RouteOp) : Bool :=
  hostRouteFirstFrom vpsIP false ops

/-- The names handed to the name service in a trace. -/
def resolvedNames : List RouteOp → List GoString
  | [] => []
  | .resolve host :: ops => host :: resolvedNames ops
  | _ :: ops => resolvedNames ops

/-- The destinations routed through a device in a trace. -/
def tunDests : List RouteOp → List GoString
  | [] => []
  | .addDev dests _ :: ops => dests ++ tunDests ops
  | _ :: ops => tunDests ops

/-- The supervisor steps of one loop iteration that ends in a wait: a failed
dial, or a session whose pump returned. -/
def attemptSteps (v : Variant) (target : GoString) (a : Attempt) : List SupStep :=
  match (dialVLESSWS v target a.dial).1 with
  | .err => [.dial, .wait 5]
  | .conn => [.dial, .relay, .wait v.teardownSleep]
  | .panic => []

/-- The iteration ends in a failure that comes back to the supervisor: the dial
returns an error, or it returns a session on which the Transport→Device pump
`forwardVLESStoTUN`, which the supervisor runs itself, returns. -/
def Attempt.Fails (v : Variant) (ctx : Nat → Bool) (target : GoString) (a : Attempt) : Prop :=
  (dialVLESSWS v target a.dial).1 = .err ∨
    ((dialVLESSWS v target a.dial).1 = .conn ∧
      ∀ t, (forwardVLESStoTUN ctx a.tunOk a.reads t 0).2 = .returned)

/-- A relay (pump) failure on the session of the iteration, in either direction:
the dial returns a session and `forwardVLESStoTUN` returns, or the spawned
`forwardTUNtoVLESS`, run on the device reads `devReads` with the write outcomes
`wsOk`, returns. -/
def Attempt.RelayFails (v : Variant) (ctx : Nat → Bool) (target : GoString) (a : Attempt)
    (wsOk : Nat → Bool) (devReads : List (Option (List Nat))) : Prop :=
  (dialVLESSWS v target a.dial).1 = .conn ∧
    ((∀ t, (forwardVLESStoTUN ctx a.tunOk a.reads t 0).2 = .returned) ∨
      (forwardTUNtoVLESS v ctx wsOk devReads).2 = .returned)

end Tun

/-! # Theorems -/

namespace Tun

/-! ## Handshake -/

/-- A list of length 4 is a literal of 4 elements. -/
theorem list_of_length_4 (l : List Nat) (h : l.length = 4) :
    ∃ a0 a1 a2 a3, l = [a0, a1, a2, a3] := by
  rcases l with _ | ⟨a0, _ | ⟨a1, _ | ⟨a2, _ | ⟨a3, _ | ⟨b, l⟩⟩⟩⟩⟩ <;> simp at h
  exact ⟨_, _, _, _, rfl⟩

/-- A list of length 16 is a literal of 16 elements. -/
theorem list_of_length_16 (l : List Nat) (h : l.length = 16) :
    ∃ a0 a1 a2 a3 a4 a5 a6 a7 a8 a9 a10 a11 a12 a13 a14 a15, l = [a0, a1, a2, a3, a4, a5, a6, a7, a8, a9, a10, a11, a12, a13, a14, a15] := by
  rcases l with _ | ⟨a0, _ | ⟨a1, _ | ⟨a2, _ | ⟨a3, _ | ⟨a4, _ | ⟨a5, _ | ⟨a6, _ | ⟨a7, _ | ⟨a8, _ | ⟨a9, _ | ⟨a10, _ | ⟨a11, _ | ⟨a12, _ | ⟨a13, _ | ⟨a14, _ | ⟨a15, _ | ⟨b, l⟩⟩⟩⟩⟩⟩⟩⟩⟩⟩⟩⟩⟩⟩⟩⟩⟩ <;> simp at h
  exact ⟨_, _, _, _, _, _, _, _, _, _, _, _, _, _, _, _, rfl⟩

/-- Decoding what the encoder produced gives the fields back. -/
theorem decode_encode (f : HandshakeFields) (hf : f.Valid) :
    decodeHandshake (encodeHandshake f) = some f := by
  obtain ⟨cid, ver, enc, res, cmd, port, aty, addr⟩ := f
  obtain ⟨h1, h2, h3, -, -, -, hp, -⟩ := hf
  simp only at h1 h2 h3 hp
  obtain ⟨c0, c1, c2, c3, c4, c5, c6, c7, c8, c9, c10, c11, c12, c13, c14, c15, rfl⟩ :=
    list_of_length_16 cid h1
  obtain ⟨e0, e1, e2, e3, e4, e5, e6, e7, e8, e9, e10, e11, e12, e13, e14, e15, rfl⟩ :=
    list_of_length_16 enc h2
  obtain ⟨d0, d1, d2, d3, rfl⟩ := list_of_length_4 addr h3
  have hport : port / 256 % 256 * 256 + port % 256 = port := by omega
  simp [decodeHandshake, encodeHandshake, hport]

/-- C1: whenever the upgrade succeeds, `dialVLESSWS` of `tun-e3372h-stable.go`
sends exactly one handshake frame; it is 42 = 16+1+16+1+1+2+1+4 bytes long,
decoding it at the fixed offsets gives the identifier
d43308ce-0cab-469d-8f4e-87c5a9d8e2bf, version 0, a zero encryption selector,
reserved 0, command 3, port 0, address type 1 and address 0.0.0.0, and encoding
the decoded fields gives the same 42 bytes back. -/
theorem stable_handshake_roundtrip (target : GoString) (d : DialEnv)
    (hup : d.upgradeOk = true) :
    ∃ m f, wsFrames (dialVLESSWS tunE3372hStable target d).2 = [m] ∧
      m.length = 42 ∧ 16 + 1 + 16 + 1 + 1 + 2 + 1 + 4 = 42 ∧
      decodeHandshake m = some f ∧
      uuidString f.clientID = "d43308ce-0cab-469d-8f4e-87c5a9d8e2bf" ∧
      f.version = 0 ∧ f.encryption = List.replicate 16 0 ∧ f.reserved = 0 ∧
      f.command = 3 ∧ f.port = 0 ∧ f.addrType = 1 ∧ f.address = [0, 0, 0, 0] ∧
      f.Valid ∧ encodeHandshake f = m := by
  refine ⟨stableHandshake, stableFields, ?_, by decide, by decide, by decide, by decide,
    rfl, rfl, rfl, rfl, rfl, rfl, rfl, ?_, by decide⟩
  · obtain ⟨u, w, a⟩ := d
    simp only at hup
    subst hup
    cases w <;> cases a <;> rfl
  · simp [HandshakeFields.Valid, stableFields, clientUUID]

/-- C1 at a concrete dial: the upgrade and the handshake write succeed and the
server answers with an empty frame. -/
theorem stable_handshake_roundtrip_witness :
    ∃ m f, wsFrames (dialVLESSWS tunE3372hStable (ascii "vps.example:8080")
        ⟨true, true, some []⟩).2 = [m] ∧
      m.length = 42 ∧ 16 + 1 + 16 + 1 + 1 + 2 + 1 + 4 = 42 ∧
      decodeHandshake m = some f ∧
      uuidString f.clientID = "d43308ce-0cab-469d-8f4e-87c5a9d8e2bf" ∧
      f.version = 0 ∧ f.encryption = List.replicate 16 0 ∧ f.reserved = 0 ∧
      f.command = 3 ∧ f.port = 0 ∧ f.addrType = 1 ∧ f.address = [0, 0, 0, 0] ∧
      f.Valid ∧ encodeHandshake f = m :=
  stable_handshake_roundtrip (ascii "vps.example:8080") ⟨true, true, some []⟩ rfl

/-- C2 as stated fails: `buildVLESSHandshake` does not return 42 bytes. -/
theorem buildVLESSHandshake_not_42_bytes : buildVLESSHandshake.length ≠ 42 := by
  decide

/-- C2 amended: `buildVLESSHandshake` returns exactly 38 = 16+1+16+1+2+1+1 bytes
(the layout of C1 without the four address bytes), and this is the frame that
`dialVLESSWS` of `tun-modem.go` writes. -/
theorem buildVLESSHandshake_is_38_bytes :
    buildVLESSHandshake.length = 38 ∧ 16 + 1 + 16 + 1 + 2 + 1 + 1 = 38 ∧
      buildVLESSHandshake ++ [0, 0, 0, 0] = encodeHandshake
        { clientID := List.replicate 16 0, version := 0, encryption := List.replicate 16 0,
          reserved := 0, command := 3, port := 0, addrType := 1, address := [0, 0, 0, 0] } ∧
      tunModem.handshake = buildVLESSHandshake := by
  refine ⟨by decide, by decide, by decide, rfl⟩

/-- C3 as stated fails: among the programs whose handshake is longer than the
16-byte identifier, `tun-android.go` has `0x00`, not the address type `0x01`,
at offset 37. -/
theorem fixed_offsets_not_in_every_variant :
    ¬ (∀ v ∈ allVariants, 16 < v.handshake.length → FixedOffsets 0 v.handshake) ∧
      16 < tunAndroid.handshake.length ∧ tunAndroid.handshake.get? 37 = some 0x00 := by
  decide

/-- C3 amended: the programs whose handshake is longer than 16 bytes are
`tun-modem`, `tun-e3372h-stable`, `tun-android`, `tun-optimized` and
`tun-e3372h-debug`. In the first two (38 and 42 bytes) the fields sit at the
offsets of the claim. In the other three (39 bytes) version, encryption
selector, reserved byte and the command byte `0x03` sit at the same offsets
16, 17..32, 33 and 34, but a second command byte `0x00` follows at 35, the
port is at 36..37 and the address type `0x01` at 38. -/
theorem handshake_offsets_by_variant :
    (allVariants.filter (fun v => decide (16 < v.handshake.length))).map (·.handshake) =
        [tunModem.handshake, tunE3372hStable.handshake, tunAndroid.handshake,
          tunOptimized.handshake, tunE3372hDebug.handshake] ∧
      (tunModem.handshake.length = 38 ∧ FixedOffsets 0 tunModem.handshake) ∧
      (tunE3372hStable.handshake.length = 42 ∧ FixedOffsets 0 tunE3372hStable.handshake) ∧
      (tunAndroid.handshake.length = 39 ∧ ShiftedOffsets 0 tunAndroid.handshake) ∧
      (tunOptimized.handshake.length = 39 ∧ ShiftedOffsets 0 tunOptimized.handshake) ∧
      (tunE3372hDebug.handshake.length = 39 ∧ ShiftedOffsets 0 tunE3372hDebug.handshake) := by
  decide

/-! ## Device→Transport pump -/

/-- A device read of a packet that fits the buffer puts exactly the packet
into `buf[:n]` and keeps the size of the buffer. -/
theorem tunReadInto_fits (buf p : List Nat) (h : p.length ≤ buf.length) :
    (tunReadInto buf p).2.take (tunReadInto buf p).1 = p ∧
      (tunReadInto buf p).2.length = buf.length := by
  have hn : min p.length buf.length = p.length := Nat.min_eq_left h
  simp only [tunReadInto, hn, List.take_length]
  constructor
  · rw [List.take_append_of_le_length (le_refl _), List.take_length]
  · simp; omega

/-- The pump loop on packets that fit its buffer, up to the first read error. -/
theorem forwardTUNtoVLESSLoop_relays (ctx wsOk : Nat → Bool)
    (hctx : ∀ t, ctx t = false) (hws : ∀ j, wsOk j = true)
    (rest : List (Option (List Nat))) (ps : List (List Nat)) :
    ∀ (buf : List Nat) (t j : Nat), (∀ p ∈ ps, p.length ≤ buf.length) →
      forwardTUNtoVLESSLoop ctx wsOk (ps.map some ++ none :: rest) buf t j =
        (relayedPackets ps ++ [.tunRead none], .returned) := by
  induction ps with
  | nil =>
    intro buf t j _
    simp [forwardTUNtoVLESSLoop, hctx, relayedPackets]
  | cons p ps ih =>
    intro buf t j hfit
    have hp : p.length ≤ buf.length := hfit p (List.mem_cons_self _ _)
    obtain ⟨h1, h2⟩ := tunReadInto_fits buf p hp
    have hrest : ∀ q ∈ ps, q.length ≤ (tunReadInto buf p).2.length := by
      intro q hq
      rw [h2]
      exact hfit q (List.mem_cons_of_mem _ hq)
    have := ih (tunReadInto buf p).2 (t + 2) (j + 1) hrest
    simp only [List.map_cons, List.cons_append, forwardTUNtoVLESSLoop, hctx, hws, if_true,
      Bool.false_eq_true, if_false, h1, relayedPackets, List.append_eq, this]

/-- The frames written while relaying `ps` are `ps`. -/
theorem wsFrames_relayedPackets (ps : List (List Nat)) (tl : List Event)
    : wsFrames (relayedPackets ps ++ tl) = ps ++ wsFrames tl := by
  induction ps with
  | nil => simp [relayedPackets]
  | cons p ps ih => simp only [relayedPackets, List.cons_append, wsFrames, List.append_eq, ih]

/-- C4: in each of the six programs (buffer of 1500 or 2048 bytes), when the
device delivers the packets `ps`, each at most the MTU of 1500 bytes, then
fails, every transport write succeeds and the context is never cancelled,
`forwardTUNtoVLESS` returns, its
trace is read/write of each packet in turn followed by the failing read, and
the frames it wrote are exactly `ps`, unchanged and in order. -/
theorem forwardTUNtoVLESS_relays (v : Variant) (ctx wsOk : Nat → Bool)
    (ps : List (List Nat)) (rest : List (Option (List Nat)))
    (hv : v ∈ allVariants) (hlen : ∀ p ∈ ps, p.length ≤ mtu)
    (hctx : ∀ t, ctx t = false) (hws : ∀ j, wsOk j = true) :
    (forwardTUNtoVLESS v ctx wsOk (ps.map some ++ none :: rest)).2 = .returned ∧
      wsFrames (forwardTUNtoVLESS v ctx wsOk (ps.map some ++ none :: rest)).1 = ps ∧
      (forwardTUNtoVLESS v ctx wsOk (ps.map some ++ none :: rest)).1 =
        relayedPackets ps ++ [.tunRead none] ∧
      (wsFrames (forwardTUNtoVLESS v ctx wsOk (ps.map some ++ none :: rest)).1).length
        = ps.length := by
  have hbuf : mtu ≤ v.bufSize := by
    simp only [allVariants, List.mem_cons, List.mem_singleton, List.not_mem_nil, or_false] at hv
    rcases hv with rfl | rfl | rfl | rfl | rfl | rfl <;> decide
  have hfit : ∀ p ∈ ps, p.length ≤ (List.replicate v.bufSize 0).length := by
    intro p hp
    rw [List.length_replicate]
    exact le_trans (hlen p hp) hbuf
  have h := forwardTUNtoVLESSLoop_relays ctx wsOk hctx hws rest ps _ 0 0 hfit
  have hf : wsFrames (relayedPackets ps ++ [Event.tunRead none]) = ps := by
    rw [wsFrames_relayedPackets]; simp [wsFrames]
  unfold forwardTUNtoVLESS
  rw [h]
  exact ⟨rfl, hf, rfl, by rw [hf]⟩

/-- C4 on the device packets "A", "BB", "CCC" in `tun-modem.go`: exactly the
three frames "A", "BB", "CCC". -/
theorem forwardTUNtoVLESS_relays_witness :
    (forwardTUNtoVLESS tunModem (fun _ => false) (fun _ => true)
        [some (ascii "A"), some (ascii "BB"), some (ascii "CCC"), none]).2 = .returned ∧
      wsFrames (forwardTUNtoVLESS tunModem (fun _ => false) (fun _ => true)
        [some (ascii "A"), some (ascii "BB"), some (ascii "CCC"), none]).1
        = [ascii "A", ascii "BB", ascii "CCC"] ∧
      (forwardTUNtoVLESS tunModem (fun _ => false) (fun _ => true)
        [some (ascii "A"), some (ascii "BB"), some (ascii "CCC"), none]).1 =
        relayedPackets [ascii "A", ascii "BB", ascii "CCC"] ++ [.tunRead none] ∧
      (wsFrames (forwardTUNtoVLESS tunModem (fun _ => false) (fun _ => true)
        [some (ascii "A"), some (ascii "BB"), some (ascii "CCC"), none]).1).length = 3 :=
  forwardTUNtoVLESS_relays tunModem (fun _ => false) (fun _ => true)
    [ascii "A", ascii "BB", ascii "CCC"] [] (List.mem_cons_self _ _) (by decide)
    (fun _ => rfl) (fun _ => rfl)

/-! ## Transport→Device pump -/

/-- The device writes while delivering `fs` are `fs`. -/
theorem tunWrites_deliveredFrames (fs : List (List Nat)) (tl : List Event) :
    tunWrites (deliveredFrames fs ++ tl) = fs ++ tunWrites tl := by
  induction fs with
  | nil => simp [deliveredFrames]
  | cons f fs ih => simp only [deliveredFrames, List.cons_append, tunWrites, List.append_eq, ih]

/-- The frame reads while delivering `fs` are as many as the frames. -/
theorem wsReadCount_deliveredFrames (fs : List (List Nat)) (tl : List Event) :
    wsReadCount (deliveredFrames fs ++ tl) = fs.length + wsReadCount tl := by
  induction fs with
  | nil => simp [deliveredFrames]
  | cons f fs ih =>
    simp only [deliveredFrames, List.cons_append, wsReadCount, List.append_eq, ih,
      List.length_cons]
    omega

/-- The pump on frames whose device writes all succeed, up to the first read error. -/
theorem forwardVLESStoTUN_all (ctx tunOk : Nat → Bool) (hctx : ∀ t, ctx t = false)
    (rest : List (Option (List Nat))) (fs : List (List Nat)) :
    ∀ (t j : Nat), (∀ i, i < fs.length → tunOk (j + i) = true) →
      forwardVLESStoTUN ctx tunOk (fs.map some ++ none :: rest) t j =
        (deliveredFrames fs ++ [.wsRead none], .returned) := by
  induction fs with
  | nil =>
    intro t j _
    simp [forwardVLESStoTUN, hctx, deliveredFrames]
  | cons f fs ih =>
    intro t j hok
    have h0 : tunOk j = true := by simpa using hok 0 (by simp)
    have hrest : ∀ i, i < fs.length → tunOk (j + 1 + i) = true := by
      intro i hi
      have := hok (i + 1) (by simp; omega)
      rwa [show j + 1 + i = j + (i + 1) by omega]
    simp only [List.map_cons, List.cons_append, forwardVLESStoTUN, hctx, h0, if_true,
      Bool.false_eq_true, if_false, deliveredFrames, List.append_eq, ih (t + 2) (j + 1) hrest]

/-- The pump up to the first failing device write. -/
theorem forwardVLESStoTUN_write_fails (ctx tunOk : Nat → Bool) (hctx : ∀ t, ctx t = false)
    (rest : List (Option (List Nat))) (f : List Nat) (pre : List (List Nat)) :
    ∀ (t j : Nat), (∀ i, i < pre.length → tunOk (j + i) = true) →
      tunOk (j + pre.length) = false →
      forwardVLESStoTUN ctx tunOk (pre.map some ++ some f :: rest) t j =
        (deliveredFrames pre ++ [.wsRead (some f), .tunWrite f false], .returned) := by
  induction pre with
  | nil =>
    intro t j _ hbad
    have hbad' : tunOk j = false := by simpa using hbad
    simp [forwardVLESStoTUN, hctx, hbad', deliveredFrames]
  | cons g pre ih =>
    intro t j hok hbad
    have h0 : tunOk j = true := by simpa using hok 0 (by simp)
    have hrest : ∀ i, i < pre.length → tunOk (j + 1 + i) = true := by
      intro i hi
      have := hok (i + 1) (by simp; omega)
      rwa [show j + 1 + i = j + (i + 1) by omega]
    have hbad' : tunOk (j + 1 + pre.length) = false := by
      rwa [show j + 1 + pre.length = j + (g :: pre).length by simp; omega]
    simp only [List.map_cons, List.cons_append, forwardVLESStoTUN, hctx, h0, if_true,
      Bool.false_eq_true, if_false, deliveredFrames, List.append_eq,
      ih (t + 2) (j + 1) hrest hbad']

/-- C5: with the context never cancelled, (1) when the transport delivers the
frames `fs`, then a read error, and every device write succeeds,
`forwardVLESStoTUN` returns after exactly `fs.length` device writes whose
arguments are `fs` in order; (2) when the device write of the frame after
`pre` is the first to fail, it returns after `pre.length + 1` device writes
and as many frame reads: it reads nothing of what the transport holds after
the frame whose write failed. -/
theorem forwardVLESStoTUN_delivers (ctx tunOk : Nat → Bool)
    (rest : List (Option (List Nat))) (hctx : ∀ t, ctx t = false) :
    (∀ fs : List (List Nat), (∀ j, j < fs.length → tunOk j = true) →
      forwardVLESStoTUN ctx tunOk (fs.map some ++ none :: rest) 0 0 =
        (deliveredFrames fs ++ [.wsRead none], .returned) ∧
      tunWrites (forwardVLESStoTUN ctx tunOk (fs.map some ++ none :: rest) 0 0).1 = fs) ∧
    (∀ (pre : List (List Nat)) (f : List Nat), (∀ j, j < pre.length → tunOk j = true) →
      tunOk pre.length = false →
      forwardVLESStoTUN ctx tunOk (pre.map some ++ some f :: rest) 0 0 =
        (deliveredFrames pre ++ [.wsRead (some f), .tunWrite f false], .returned) ∧
      tunWrites (forwardVLESStoTUN ctx tunOk (pre.map some ++ some f :: rest) 0 0).1
        = pre ++ [f] ∧
      wsReadCount (forwardVLESStoTUN ctx tunOk (pre.map some ++ some f :: rest) 0 0).1
        = pre.length + 1) := by
  constructor
  · intro fs hok
    have h := forwardVLESStoTUN_all ctx tunOk hctx rest fs 0 0 (by simpa using hok)
    rw [h]
    refine ⟨rfl, ?_⟩
    rw [tunWrites_deliveredFrames]
    simp [tunWrites]
  · intro pre f hok hbad
    have h := forwardVLESStoTUN_write_fails ctx tunOk hctx rest f pre 0 0
      (by simpa using hok) (by simpa using hbad)
    rw [h]
    refine ⟨rfl, ?_, ?_⟩
    · rw [tunWrites_deliveredFrames]
      simp [tunWrites]
    · rw [wsReadCount_deliveredFrames]
      simp [wsReadCount]

/-- C5 on three frames: all delivered when every device write succeeds; when
the second device write fails the pump stops after two writes and two reads,
leaving the third frame unread. -/
theorem forwardVLESStoTUN_delivers_witness :
    (forwardVLESStoTUN (fun _ => false) (fun _ => true)
        [some [1], some [2, 2], some [3, 3, 3], none] 0 0 =
        (deliveredFrames [[1], [2, 2], [3, 3, 3]] ++ [.wsRead none], .returned) ∧
      tunWrites (forwardVLESStoTUN (fun _ => false) (fun _ => true)
        [some [1], some [2, 2], some [3, 3, 3], none] 0 0).1 = [[1], [2, 2], [3, 3, 3]]) ∧
    (forwardVLESStoTUN (fun _ => false) (fun j => decide (j ≠ 1))
        [some [1], some [2, 2], some [3, 3, 3], none] 0 0 =
        (deliveredFrames [[1]] ++ [.wsRead (some [2, 2]), .tunWrite [2, 2] false], .returned) ∧
      tunWrites (forwardVLESStoTUN (fun _ => false) (fun j => decide (j ≠ 1))
        [some [1], some [2, 2], some [3, 3, 3], none] 0 0).1 = [[1], [2, 2]] ∧
      wsReadCount (forwardVLESStoTUN (fun _ => false) (fun j => decide (j ≠ 1))
        [some [1], some [2, 2], some [3, 3, 3], none] 0 0).1 = 2) :=
  ⟨(forwardVLESStoTUN_delivers (fun _ => false) (fun _ => true) [] (fun _ => rfl)).1
      [[1], [2, 2], [3, 3, 3]] (fun _ _ => rfl),
    (forwardVLESStoTUN_delivers (fun _ => false) (fun j => decide (j ≠ 1))
      [some [3, 3, 3], none] (fun _ => rfl)).2 [[1]] [2, 2] (by decide) (by decide)⟩

/-! ## Dialer -/

/-- C7: in every variant, when the slice expression for the server name is in
range, (1) if the upgrade succeeds and the handshake write fails,
`dialVLESSWS` returns an error and no session, and its trace is dial, failed
write, close: the connection is closed exactly once, as its last action;
(2) if the upgrade fails it returns an error and no session, and the failed
dial is its only action: no frame is written. -/
theorem dialVLESSWS_failure_paths (v : Variant) (target : GoString) (d : DialEnv)
    (hs : ∀ c, v.serverNameCut = some c → c ≤ target.length) :
    (d.upgradeOk = true → d.writeOk = false →
      (dialVLESSWS v target d).1 = .err ∧
      (dialVLESSWS v target d).2 =
        [.dial (v.scheme ++ target ++ v.path) true, .wsWrite v.handshake false, .wsClose] ∧
      (dialVLESSWS v target d).2.count .wsClose = 1 ∧
      (dialVLESSWS v target d).2.getLast? = some .wsClose) ∧
    (d.upgradeOk = false →
      (dialVLESSWS v target d).1 = .err ∧
      (dialVLESSWS v target d).2 = [.dial (v.scheme ++ target ++ v.path) false] ∧
      wsFrames (dialVLESSWS v target d).2 = [] ∧
      (dialVLESSWS v target d).2.count .wsClose = 0) := by
  have hslice : ∀ x, v.serverNameCut.map (sliceTo target) = some x → x ≠ none := by
    intro x hx
    cases hc : v.serverNameCut with
    | none => simp [hc] at hx
    | some c =>
      have := hs c hc
      simp [hc, sliceTo, this] at hx
      simp [← hx]
  constructor
  · intro hu hw
    unfold dialVLESSWS
    split
    · rename_i h; exact absurd rfl (hslice _ h)
    · simp [hu, hw, List.count_cons]
  · intro hu
    unfold dialVLESSWS
    split
    · rename_i h; exact absurd rfl (hslice _ h)
    · simp [hu, wsFrames, List.count_cons]

/-- C7 in `tun-modem.go` for the target `vps.example:443`. -/
theorem dialVLESSWS_failure_paths_witness :
    (∀ c, tunModem.serverNameCut = some c → c ≤ (ascii "vps.example:443").length) ∧
    (dialVLESSWS tunModem (ascii "vps.example:443") ⟨true, false, none⟩).1 = .err ∧
    (dialVLESSWS tunModem (ascii "vps.example:443") ⟨true, false, none⟩).2.count .wsClose = 1 ∧
    (dialVLESSWS tunModem (ascii "vps.example:443") ⟨false, true, none⟩).1 = .err ∧
    wsFrames (dialVLESSWS tunModem (ascii "vps.example:443") ⟨false, true, none⟩).2 = [] :=
  have hs : ∀ c, tunModem.serverNameCut = some c → c ≤ (ascii "vps.example:443").length := by
    intro c hc
    have : c = 4 := by simpa [tunModem] using hc.symm
    subst this
    decide
  ⟨hs,
    ((dialVLESSWS_failure_paths tunModem (ascii "vps.example:443") ⟨true, false, none⟩ hs).1
      rfl rfl).1,
    ((dialVLESSWS_failure_paths tunModem (ascii "vps.example:443") ⟨true, false, none⟩ hs).1
      rfl rfl).2.2.1,
    ((dialVLESSWS_failure_paths tunModem (ascii "vps.example:443") ⟨false, true, none⟩ hs).2
      rfl).1,
    ((dialVLESSWS_failure_paths tunModem (ascii "vps.example:443") ⟨false, true, none⟩ hs).2
      rfl).2.2.1⟩

/-- C8: `dialVLESSWS` of `tun-e3372h-stable.go` returns a session exactly when the
upgrade, the handshake write and the read of the server response all succeed,
and then its trace is dial, write of the full 42-byte handshake, one frame
read, in that order, with no close; if the upgrade and the write succeed and
the read of the response fails, it returns an error and no session after
dial, write, failed read, close. -/
theorem dialVLESSWS_stable_ack (target : GoString) (d : DialEnv) :
    ((dialVLESSWS tunE3372hStable target d).1 = .conn ↔
      d.upgradeOk = true ∧ d.writeOk = true ∧ d.ack.isSome = true) ∧
    ((dialVLESSWS tunE3372hStable target d).1 = .conn →
      ∃ response, d.ack = some response ∧
        (dialVLESSWS tunE3372hStable target d).2 =
          [.dial (ascii "ws://" ++ target ++ ascii "/tun") true,
            .wsWrite stableHandshake true, .wsRead (some response)] ∧
        stableHandshake.length = 42) ∧
    (d.upgradeOk = true → d.writeOk = true → d.ack = none →
      (dialVLESSWS tunE3372hStable target d).1 = .err ∧
      (dialVLESSWS tunE3372hStable target d).2 =
        [.dial (ascii "ws://" ++ target ++ ascii "/tun") true,
          .wsWrite stableHandshake true, .wsRead none, .wsClose] ∧
      (dialVLESSWS tunE3372hStable target d).2.count .wsClose = 1) := by
  obtain ⟨u, w, a⟩ := d
  cases u <;> cases w <;> cases a
  all_goals simp [dialVLESSWS, tunE3372hStable, List.count_cons]
  all_goals decide

/-- C8 at a concrete dial: the server response is the frame `[7]` in the
first conjunct and a read error in the second. -/
theorem dialVLESSWS_stable_ack_witness :
    (∃ response, (some [7] : Option (List Nat)) = some response ∧
      (dialVLESSWS tunE3372hStable (ascii "vps.example:8080") ⟨true, true, some [7]⟩).2 =
        [.dial (ascii "ws://" ++ ascii "vps.example:8080" ++ ascii "/tun") true,
          .wsWrite stableHandshake true, .wsRead (some response)] ∧
      stableHandshake.length = 42) ∧
    ((dialVLESSWS tunE3372hStable (ascii "vps.example:8080") ⟨true, true, none⟩).1 = .err ∧
      (dialVLESSWS tunE3372hStable (ascii "vps.example:8080") ⟨true, true, none⟩).2 =
        [.dial (ascii "ws://" ++ ascii "vps.example:8080" ++ ascii "/tun") true,
          .wsWrite stableHandshake true, .wsRead none, .wsClose] ∧
      (dialVLESSWS tunE3372hStable (ascii "vps.example:8080")
        ⟨true, true, none⟩).2.count .wsClose = 1) :=
  ⟨(dialVLESSWS_stable_ack (ascii "vps.example:8080") ⟨true, true, some [7]⟩).2.1 rfl,
    (dialVLESSWS_stable_ack (ascii "vps.example:8080") ⟨true, true, none⟩).2.2 rfl rfl rfl⟩

/-! ## Supervisor -/

/-- The trace of a dial: empty on a panic; otherwise it starts with the dial
call, which is its only supervisor step, and holds no close when a session is
returned. -/
theorem dialVLESSWS_shape (v : Variant) (target : GoString) (d : DialEnv) :
    ((dialVLESSWS v target d).1 = .panic ∧ (dialVLESSWS v target d).2 = []) ∨
    ((dialVLESSWS v target d).1 ≠ .panic ∧
      ∃ b es, (dialVLESSWS v target d).2 = .dial (v.scheme ++ target ++ v.path) b :: es ∧
        (∀ e ∈ es, e.supStep = none) ∧
        ((dialVLESSWS v target d).1 = .conn → ∀ e ∈ es, e ≠ .wsClose)) := by
  obtain ⟨u, w, a⟩ := d
  unfold dialVLESSWS
  split
  · exact Or.inl ⟨rfl, rfl⟩
  · right
    cases u <;> cases w <;> cases hv : v.awaitAck <;> cases a <;>
      simp [Event.supStep]

/-- Every action of `forwardVLESStoTUN` is a frame read or a device write. -/
theorem forwardVLESStoTUN_steps (ctx tunOk : Nat → Bool) (reads : List (Option (List Nat))) :
    ∀ (t j : Nat), ∀ e ∈ (forwardVLESStoTUN ctx tunOk reads t j).1, e.isRelayStep = true := by
  induction reads with
  | nil =>
    intro t j e he
    cases h : ctx t <;> simp [forwardVLESStoTUN, h] at he
  | cons r rest ih =>
    intro t j e he
    cases r with
    | none =>
      cases h : ctx t <;> simp [forwardVLESStoTUN, h] at he
      subst he; rfl
    | some packet =>
      cases h : ctx t <;> cases hw : tunOk j <;> simp [forwardVLESStoTUN, h, hw] at he
      · rcases he with rfl | rfl <;> rfl
      · rcases he with rfl | rfl | he
        · rfl
        · rfl
        · exact ih _ _ e he

/-- Splitting a concatenation at an element that is not in its first part. -/
theorem split_of_not_mem {α : Type} {x : α} {A B pre post : List α}
    (h : A ++ B = pre ++ x :: post) (hx : x ∉ A) :
    ∃ m, pre = A ++ m ∧ B = m ++ x :: post := by
  rcases List.append_eq_append_iff.mp h with ⟨m, h1, h2⟩ | ⟨m, h1, h2⟩
  · exact ⟨m, h1, h2⟩
  · cases m with
    | nil =>
      refine ⟨[], ?_, ?_⟩
      · simpa using h1.symm
      · simpa using h2.symm
    | cons y m =>
      simp only [List.cons_append, List.cons.injEq] at h2
      exact absurd (by rw [h1, h2.1]; simp) hx

/-- The supervisor steps of the tagged trace of a dial that did not panic. -/
theorem supSteps_dial (v : Variant) (target : GoString) (d : DialEnv) (i : Nat)
    (h : (dialVLESSWS v target d).1 ≠ .panic) :
    supSteps ((dialVLESSWS v target d).2.map (Prod.mk i)) = [.dial] := by
  rcases dialVLESSWS_shape v target d with ⟨hp, -⟩ | ⟨-, b, es, hes, hnone, -⟩
  · exact absurd hp h
  · rw [hes]
    simp only [supSteps, List.map_cons, List.filterMap_cons, Event.supStep]
    rw [List.filterMap_eq_nil_iff.mpr]
    intro e he
    obtain ⟨x, hx, rfl⟩ := List.mem_map.mp he
    exact hnone x hx

/-- The supervisor steps of a concatenation. -/
theorem supSteps_append (a b : List (Nat × Event)) :
    supSteps (a ++ b) = supSteps a ++ supSteps b := by
  simp [supSteps]

/-- The loop after `fails.length` failing dials and a successful one: the trace
up to the start of the pumps. -/
theorem startL3Tunnel_failed_dials_then_session (v : Variant) (ctx : Nat → Bool) (target : GoString)
    (hctx : ∀ t, ctx t = false) (a : Attempt) (rest : List Attempt)
    (hok : (dialVLESSWS v target a.dial).1 = .conn) (fails : List Attempt) :
    ∀ (t i : Nat), (∀ x ∈ fails, (dialVLESSWS v target x.dial).1 = .err) →
      ∃ pre post, (startL3Tunnel v ctx target (fails ++ a :: rest) t i).1 =
          pre ++ (i + fails.length, .spawn) :: post ∧
        supSteps pre = retrySteps 5 fails.length ++ [.dial] := by
  induction fails with
  | nil =>
    intro t i _
    have hnp : (dialVLESSWS v target a.dial).1 ≠ .panic := by rw [hok]; simp
    simp only [List.nil_append, startL3Tunnel, hctx, Bool.false_eq_true, if_false, hok]
    split
    · exact ⟨(dialVLESSWS v target a.dial).2.map (Prod.mk i), _, rfl,
        by simpa [retrySteps] using supSteps_dial v target a.dial i hnp⟩
    · exact ⟨(dialVLESSWS v target a.dial).2.map (Prod.mk i), _, rfl,
        by simpa [retrySteps] using supSteps_dial v target a.dial i hnp⟩
  | cons x fails ih =>
    intro t i hfail
    have hx : (dialVLESSWS v target x.dial).1 = .err := hfail x (List.mem_cons_self _ _)
    have hnp : (dialVLESSWS v target x.dial).1 ≠ .panic := by rw [hx]; simp
    obtain ⟨pre, post, hk, hsteps⟩ := ih (t + (dialVLESSWS v target x.dial).2.length + 1) (i + 1)
      (fun y hy => hfail y (List.mem_cons_of_mem _ hy))
    refine ⟨(dialVLESSWS v target x.dial).2.map (Prod.mk i) ++ (i, .sleep 5) :: pre, post, ?_, ?_⟩
    · simp only [List.cons_append, startL3Tunnel, hctx, Bool.false_eq_true, if_false, hx,
        List.append_eq, hk, List.length_cons, List.append_assoc]
      rw [show i + 1 + fails.length = i + (fails.length + 1) by omega]
    · rw [supSteps_append, supSteps_dial v target x.dial i hnp]
      simp only [supSteps, List.filterMap_cons, Event.supStep] at hsteps ⊢
      simp [retrySteps, hsteps]

/-- C6: when the first `k` dials return an error, the next one returns a session
and the context is never cancelled, the trace of `startL3Tunnel` up to the
start of the pumps on that session (number `k`) consists, as far as the steps
of the supervisor go, of `k` times dial then a wait of 5 seconds, followed by
one more dial: `k + 1` dial attempts and `k` waits, in every variant. -/
theorem startL3Tunnel_retries (v : Variant) (ctx : Nat → Bool) (target : GoString)
    (fails : List Attempt) (a : Attempt) (rest : List Attempt)
    (hctx : ∀ t, ctx t = false)
    (hfail : ∀ x ∈ fails, (dialVLESSWS v target x.dial).1 = .err)
    (hok : (dialVLESSWS v target a.dial).1 = .conn) :
    ∃ pre post, (startL3Tunnel v ctx target (fails ++ a :: rest) 0 0).1 =
        pre ++ (fails.length, .spawn) :: post ∧
      supSteps pre = retrySteps 5 fails.length ++ [.dial] ∧
      (supSteps pre).count .dial = fails.length + 1 ∧
      (supSteps pre).count (.wait 5) = fails.length ∧
      (supSteps pre).length = 2 * fails.length + 1 := by
  obtain ⟨pre, post, h1, h2⟩ :=
    startL3Tunnel_failed_dials_then_session v ctx target hctx a rest hok fails 0 0 hfail
  refine ⟨pre, post, by simpa using h1, h2, ?_, ?_, ?_⟩
  all_goals rw [h2]
  all_goals generalize fails.length = k
  all_goals induction k with
    | zero => simp [retrySteps]
    | succ k ih => simp [retrySteps, List.count_cons] at ih ⊢; omega

/-- C6 in `tun-modem.go` with `k = 2`: the first dial fails in the upgrade, the
second in the handshake write, the third succeeds. -/
theorem startL3Tunnel_retries_witness :
    ∃ pre post, (startL3Tunnel tunModem (fun _ => false) (ascii "vps.example:443")
        ([⟨⟨false, true, none⟩, [], fun _ => true⟩, ⟨⟨true, false, none⟩, [], fun _ => true⟩] ++
          ⟨⟨true, true, none⟩, [none], fun _ => true⟩ :: []) 0 0).1 =
        pre ++ (2, .spawn) :: post ∧
      supSteps pre = retrySteps 5 2 ++ [.dial] ∧
      (supSteps pre).count .dial = 2 + 1 ∧
      (supSteps pre).count (.wait 5) = 2 ∧
      (supSteps pre).length = 2 * 2 + 1 :=
  startL3Tunnel_retries tunModem (fun _ => false) (ascii "vps.example:443")
    [⟨⟨false, true, none⟩, [], fun _ => true⟩, ⟨⟨true, false, none⟩, [], fun _ => true⟩]
    ⟨⟨true, true, none⟩, [none], fun _ => true⟩ [] (fun _ => rfl) (by decide) (by decide)

/-- One iteration of the loop when the context is not cancelled at its start:
the trace is empty (the dial panicked), or it opens with the dial call and the
other actions `es` of the dialer, followed on a dial error by the wait of 5
seconds and the remaining iterations, and on a session by the start of the
pumps and the actions `ps` of `forwardVLESStoTUN`, then, if that returned, the
close, the wait and the remaining iterations; if it did not return, neither
does the loop. -/
theorem startL3Tunnel_cons (v : Variant) (ctx : Nat → Bool) (target : GoString)
    (a : Attempt) (rest : List Attempt) (t i : Nat) (h : ctx t = false) :
    ((startL3Tunnel v ctx target (a :: rest) t i).1 = [] ∧
      (startL3Tunnel v ctx target (a :: rest) t i).2 = .panicked) ∨
    ∃ (b : Bool) (es : List Event), (∀ e ∈ es, e.supStep = none) ∧
      (((startL3Tunnel v ctx target (a :: rest) t i).1 =
          (i, .dial (v.scheme ++ target ++ v.path) b) :: (es.map (Prod.mk i) ++
            (i, .sleep 5) :: (startL3Tunnel v ctx target rest (t + (es.length + 1) + 1) (i + 1)).1)
        ∧ (startL3Tunnel v ctx target (a :: rest) t i).2 =
          (startL3Tunnel v ctx target rest (t + (es.length + 1) + 1) (i + 1)).2)
      ∨ ((∀ e ∈ es, e ≠ .wsClose) ∧ ∃ ps : List Event, (∀ e ∈ ps, e.isRelayStep = true) ∧
        (((startL3Tunnel v ctx target (a :: rest) t i).1 =
            (i, .dial (v.scheme ++ target ++ v.path) b) :: (es.map (Prod.mk i) ++
              (i, .spawn) :: (ps.map (Prod.mk i) ++ (i, .wsClose) ::
                (i, .sleep v.teardownSleep) ::
                (startL3Tunnel v ctx target rest
                  (t + (es.length + 1) + 1 + ps.length + 2) (i + 1)).1))
          ∧ (startL3Tunnel v ctx target (a :: rest) t i).2 =
            (startL3Tunnel v ctx target rest
              (t + (es.length + 1) + 1 + ps.length + 2) (i + 1)).2)
        ∨ ((startL3Tunnel v ctx target (a :: rest) t i).1 =
            (i, .dial (v.scheme ++ target ++ v.path) b) :: (es.map (Prod.mk i) ++
              (i, .spawn) :: ps.map (Prod.mk i))
          ∧ (startL3Tunnel v ctx target (a :: rest) t i).2 ≠ .returned)))) := by
  rcases dialVLESSWS_shape v target a.dial with ⟨hp, he⟩ | ⟨hnp, b, es, hes, hnone, hclose⟩
  · left
    simp [startL3Tunnel, h, hp, he]
  · right
    refine ⟨b, es, hnone, ?_⟩
    cases hd : (dialVLESSWS v target a.dial).1 with
    | panic => exact absurd hd hnp
    | err =>
      left
      simp [startL3Tunnel, h, hd, hes]
    | conn =>
      right
      refine ⟨hclose hd, (forwardVLESStoTUN ctx a.tunOk a.reads (t + (es.length + 1) + 1) 0).1,
        forwardVLESStoTUN_steps ctx a.tunOk a.reads _ _, ?_⟩
      cases hs : (forwardVLESStoTUN ctx a.tunOk a.reads (t + (es.length + 1) + 1) 0).2 with
      | returned =>
        left
        simp [startL3Tunnel, h, hd, hes, hs]
      | running =>
        right
        simp [startL3Tunnel, h, hd, hes, hs]
      | panicked =>
        right
        simp [startL3Tunnel, h, hd, hes, hs]

/-- With the context cancelled at the start the loop returns at once. -/
theorem startL3Tunnel_cancelled (v : Variant) (ctx : Nat → Bool) (target : GoString)
    (atts : List Attempt) (t i : Nat) (h : ctx t = true) :
    startL3Tunnel v ctx target atts t i = ([], .returned) := by
  cases atts <;> simp [startL3Tunnel, h]

/-- The trace of the loop on no further attempts is empty. -/
theorem startL3Tunnel_nil (v : Variant) (ctx : Nat → Bool) (target : GoString) (t i : Nat) :
    (startL3Tunnel v ctx target [] t i).1 = [] := by
  cases h : ctx t <;> simp [startL3Tunnel, h]

/-- An action of `forwardVLESStoTUN` is no supervisor step. -/
theorem supStep_of_isRelayStep (e : Event) (h : e.isRelayStep = true) : e.supStep = none := by
  cases e <;> simp [Event.isRelayStep] at h <;> rfl

/-- Every dial call in the trace of the loop was made at a moment at which the
context was not cancelled. -/
theorem startL3Tunnel_dial_clock (v : Variant) (ctx : Nat → Bool) (target : GoString)
    (atts : List Attempt) :
    ∀ (t i : Nat) (pre post : List (Nat × Event)) (j : Nat) (u : GoString) (ok : Bool),
      (startL3Tunnel v ctx target atts t i).1 = pre ++ (j, .dial u ok) :: post →
      ctx (t + pre.length) = false := by
  induction atts with
  | nil =>
    intro t i pre post j u ok he
    rw [startL3Tunnel_nil] at he
    simp at he
  | cons a rest ih =>
    intro t i pre post j u ok he
    cases h : ctx t with
    | true => rw [startL3Tunnel_cancelled v ctx target _ t i h] at he; simp at he
    | false =>
      cases pre with
      | nil => simpa using h
      | cons y pre =>
        rcases startL3Tunnel_cons v ctx target a rest t i h with
          ⟨h0, -⟩ | ⟨b, es, hnone, ⟨h1, -⟩ | ⟨-, ps, hps, ⟨h1, -⟩ | ⟨h1, -⟩⟩⟩
        · rw [h0] at he; simp at he
        · rw [h1] at he
          simp only [List.cons_append, List.cons.injEq] at he
          have hsplit : (es.map (Prod.mk i) ++ [(i, Event.sleep 5)]) ++
              (startL3Tunnel v ctx target rest (t + (es.length + 1) + 1) (i + 1)).1 =
              pre ++ (j, .dial u ok) :: post := by
            rw [← he.2]; simp
          have hnot : (j, Event.dial u ok) ∉ es.map (Prod.mk i) ++ [(i, Event.sleep 5)] := by
            simp only [List.mem_append, List.mem_map, List.mem_singleton, not_or]
            refine ⟨?_, by simp⟩
            rintro ⟨x, hx, hxe⟩
            have := hnone x hx
            simp only [Prod.mk.injEq] at hxe
            rw [hxe.2] at this
            simp [Event.supStep] at this
          obtain ⟨m, hm, hk⟩ := split_of_not_mem hsplit hnot
          have := ih _ _ m post j u ok hk
          rw [hm]
          simp only [List.length_cons, List.length_append, List.length_map, List.length_nil]
          rw [show t + (es.length + (0 + 1) + m.length + 1) =
            t + (es.length + 1) + 1 + m.length by omega]
          exact this
        · rw [h1] at he
          simp only [List.cons_append, List.cons.injEq] at he
          have hsplit : (es.map (Prod.mk i) ++ (i, Event.spawn) :: (ps.map (Prod.mk i) ++
              [(i, .wsClose), (i, .sleep v.teardownSleep)])) ++
              (startL3Tunnel v ctx target rest
                (t + (es.length + 1) + 1 + ps.length + 2) (i + 1)).1 =
              pre ++ (j, .dial u ok) :: post := by
            rw [← he.2]; simp
          have hnot : (j, Event.dial u ok) ∉ es.map (Prod.mk i) ++ (i, Event.spawn) ::
              (ps.map (Prod.mk i) ++ [(i, .wsClose), (i, .sleep v.teardownSleep)]) := by
            simp only [List.mem_append, List.mem_map, List.mem_cons, not_or]
            refine ⟨?_, by simp, ?_, by simp⟩
            · rintro ⟨x, hx, hxe⟩
              have := hnone x hx
              simp only [Prod.mk.injEq] at hxe
              rw [hxe.2] at this
              simp [Event.supStep] at this
            · rintro ⟨x, hx, hxe⟩
              have := supStep_of_isRelayStep x (hps x hx)
              simp only [Prod.mk.injEq] at hxe
              rw [hxe.2] at this
              simp [Event.supStep] at this
          obtain ⟨m, hm, hk⟩ := split_of_not_mem hsplit hnot
          have := ih _ _ m post j u ok hk
          rw [hm]
          simp only [List.length_cons, List.length_append, List.length_map, List.length_nil]
          rw [show t + (es.length + (ps.length + (0 + 1 + 1) + 1) + m.length + 1) =
            t + (es.length + 1) + 1 + ps.length + 2 + m.length by omega]
          exact this
        · rw [h1] at he
          simp only [List.cons_append, List.cons.injEq] at he
          have hmem : (j, Event.dial u ok) ∈ es.map (Prod.mk i) ++ (i, Event.spawn) ::
              ps.map (Prod.mk i) := by
            rw [he.2]; simp
          simp only [List.mem_append, List.mem_map, List.mem_cons] at hmem
          rcases hmem with ⟨x, hx, hxe⟩ | hxe | ⟨x, hx, hxe⟩
          · have := hnone x hx
            simp only [Prod.mk.injEq] at hxe
            rw [hxe.2] at this
            simp [Event.supStep] at this
          · simp at hxe
          · have := supStep_of_isRelayStep x (hps x hx)
            simp only [Prod.mk.injEq] at hxe
            rw [hxe.2] at this
            simp [Event.supStep] at this

/-- C10: (1) whenever `startL3Tunnel` begins a loop iteration with the context
cancelled (whatever came before: the start, a backoff wait or a teardown), it
returns at once, with no action at all; (2) every dial call in a run was made
at a moment at which the context was not cancelled; (3) so, cancellation being
permanent, once it is signalled after `c` actions no dial call is made from
then on. -/
theorem startL3Tunnel_no_dial_after_cancel (v : Variant) (ctx : Nat → Bool)
    (target : GoString) (atts : List Attempt) :
    (∀ t i, ctx t = true → startL3Tunnel v ctx target atts t i = ([], .returned)) ∧
    (∀ pre post j u ok,
      (startL3Tunnel v ctx target atts 0 0).1 = pre ++ (j, .dial u ok) :: post →
      ctx pre.length = false) ∧
    ((∀ s s', s ≤ s' → ctx s = true → ctx s' = true) → ∀ c, ctx c = true →
      ∀ pre post j u ok,
        (startL3Tunnel v ctx target atts 0 0).1 = pre ++ (j, .dial u ok) :: post →
        pre.length < c) := by
  have h2 : ∀ pre post j u ok,
      (startL3Tunnel v ctx target atts 0 0).1 = pre ++ (j, .dial u ok) :: post →
      ctx pre.length = false := by
    intro pre post j u ok he
    simpa using startL3Tunnel_dial_clock v ctx target atts 0 0 pre post j u ok he
  refine ⟨fun t i h => startL3Tunnel_cancelled v ctx target atts t i h, h2, ?_⟩
  intro hmono c hc pre post j u ok he
  by_contra hlt
  have := hmono c pre.length (by omega) hc
  rw [h2 pre post j u ok he] at this
  exact Bool.false_ne_true this

/-- C10 in `tun-modem.go` with cancellation signalled after two actions: the
first dial fails, the loop waits, and the second iteration returns without
dialing although a second dial would succeed. -/
theorem startL3Tunnel_no_dial_after_cancel_witness :
    startL3Tunnel tunModem (fun t => decide (2 ≤ t)) (ascii "vps.example:443")
        [⟨⟨false, true, none⟩, [], fun _ => true⟩, ⟨⟨true, true, none⟩, [none], fun _ => true⟩]
        2 1 = ([], .returned) ∧
    (fun t => decide (2 ≤ t)) ([] : List (Nat × Event)).length = false ∧
    (startL3Tunnel tunModem (fun t => decide (2 ≤ t)) (ascii "vps.example:443")
        [⟨⟨false, true, none⟩, [], fun _ => true⟩, ⟨⟨true, true, none⟩, [none], fun _ => true⟩]
        0 0) = ([(0, .dial (ascii "wss://vps.example:443/vless") false), (0, .sleep 5)],
          .returned) :=
  ⟨(startL3Tunnel_no_dial_after_cancel tunModem (fun t => decide (2 ≤ t))
      (ascii "vps.example:443")
      [⟨⟨false, true, none⟩, [], fun _ => true⟩, ⟨⟨true, true, none⟩, [none], fun _ => true⟩]).1
      2 1 rfl,
    (startL3Tunnel_no_dial_after_cancel tunModem (fun t => decide (2 ≤ t))
      (ascii "vps.example:443")
      [⟨⟨false, true, none⟩, [], fun _ => true⟩, ⟨⟨true, true, none⟩, [none], fun _ => true⟩]).2.1
      [] [(0, .sleep 5)] 0 (ascii "wss://vps.example:443/vless") false (by decide),
    by decide⟩

/-- A wait of the loop is the last action of its iteration: when the context is
cancelled at the head of the next iteration, nothing follows the wait and the
loop returns. -/
theorem startL3Tunnel_wait_then_head (v : Variant) (ctx : Nat → Bool) (target : GoString)
    (atts : List Attempt) :
    ∀ (t i : Nat) (pre post : List (Nat × Event)) (j s : Nat),
      (startL3Tunnel v ctx target atts t i).1 = pre ++ (j, .sleep s) :: post →
      ctx (t + pre.length + 1) = true →
      post = [] ∧ (startL3Tunnel v ctx target atts t i).2 = .returned := by
  induction atts with
  | nil =>
    intro t i pre post j s he
    rw [startL3Tunnel_nil] at he
    simp at he
  | cons a rest ih =>
    intro t i pre post j s he hc
    cases h : ctx t with
    | true => rw [startL3Tunnel_cancelled v ctx target _ t i h] at he; simp at he
    | false =>
      have hes_not : ∀ es : List Event, (∀ e ∈ es, e.supStep = none) →
          (j, Event.sleep s) ∉ es.map (Prod.mk i) := by
        intro es hnone hmem
        obtain ⟨x, hx, hxe⟩ := List.mem_map.mp hmem
        have := hnone x hx
        simp only [Prod.mk.injEq] at hxe
        rw [hxe.2] at this
        simp [Event.supStep] at this
      rcases startL3Tunnel_cons v ctx target a rest t i h with
        ⟨h0, -⟩ | ⟨b, es, hnone, ⟨h1, hst⟩ | ⟨-, ps, hps, ⟨h1, hst⟩ | ⟨h1, -⟩⟩⟩
      · rw [h0] at he; simp at he
      · have hsplit : ((i, Event.dial (v.scheme ++ target ++ v.path) b) :: es.map (Prod.mk i)) ++
            ((i, Event.sleep 5) ::
              (startL3Tunnel v ctx target rest (t + (es.length + 1) + 1) (i + 1)).1) =
            pre ++ (j, .sleep s) :: post := by
          rw [← he, h1]; simp
        have hnot : (j, Event.sleep s) ∉
            (i, Event.dial (v.scheme ++ target ++ v.path) b) :: es.map (Prod.mk i) := by
          simp only [List.mem_cons, not_or]
          exact ⟨by simp, hes_not es hnone⟩
        obtain ⟨m, hm, hk⟩ := split_of_not_mem hsplit hnot
        have hlen : pre.length = es.length + 1 + m.length := by
          rw [hm]; simp; omega
        cases m with
        | nil =>
          simp only [List.nil_append, List.cons.injEq] at hk
          have hc' : ctx (t + (es.length + 1) + 1) = true := by
            rw [hlen] at hc
            simpa using hc
          have hK := startL3Tunnel_cancelled v ctx target rest _ (i + 1) hc'
          rw [hst, ← hk.2, hK]
          exact ⟨rfl, rfl⟩
        | cons y m =>
          simp only [List.cons_append, List.cons.injEq] at hk
          have hc' : ctx (t + (es.length + 1) + 1 + m.length + 1) = true := by
            rw [hlen] at hc
            simp only [List.length_cons] at hc
            rwa [show t + (es.length + 1) + 1 + m.length + 1 =
              t + (es.length + 1 + (m.length + 1)) + 1 by omega]
          rw [hst]
          exact ih _ _ m post j s hk.2 hc'
      · have hsplit : ((i, Event.dial (v.scheme ++ target ++ v.path) b) ::
            (es.map (Prod.mk i) ++ (i, Event.spawn) :: (ps.map (Prod.mk i) ++
              [(i, .wsClose)]))) ++
            ((i, Event.sleep v.teardownSleep) ::
              (startL3Tunnel v ctx target rest
                (t + (es.length + 1) + 1 + ps.length + 2) (i + 1)).1) =
            pre ++ (j, .sleep s) :: post := by
          rw [← he, h1]; simp
        have hnot : (j, Event.sleep s) ∉
            (i, Event.dial (v.scheme ++ target ++ v.path) b) ::
            (es.map (Prod.mk i) ++ (i, Event.spawn) :: (ps.map (Prod.mk i) ++
              [(i, .wsClose)])) := by
          simp only [List.mem_cons, List.mem_append, List.mem_singleton, not_or]
          refine ⟨by simp, hes_not es hnone, by simp,
            hes_not ps (fun e he => supStep_of_isRelayStep e (hps e he)), by simp⟩
        obtain ⟨m, hm, hk⟩ := split_of_not_mem hsplit hnot
        have hlen : pre.length = es.length + 1 + 1 + ps.length + 1 + m.length := by
          rw [hm]; simp; omega
        cases m with
        | nil =>
          simp only [List.nil_append, List.cons.injEq] at hk
          have hc' : ctx (t + (es.length + 1) + 1 + ps.length + 2) = true := by
            rw [hlen] at hc
            rwa [show t + (es.length + 1) + 1 + ps.length + 2 =
              t + (es.length + 1 + 1 + ps.length + 1 + ([] : List (Nat × Event)).length) + 1
              by simp; omega]
          have hK := startL3Tunnel_cancelled v ctx target rest _ (i + 1) hc'
          rw [hst, ← hk.2, hK]
          exact ⟨rfl, rfl⟩
        | cons y m =>
          simp only [List.cons_append, List.cons.injEq] at hk
          have hc' : ctx (t + (es.length + 1) + 1 + ps.length + 2 + m.length + 1) = true := by
            rw [hlen] at hc
            simp only [List.length_cons] at hc
            rwa [show t + (es.length + 1) + 1 + ps.length + 2 + m.length + 1 =
              t + (es.length + 1 + 1 + ps.length + 1 + (m.length + 1)) + 1 by omega]
          rw [hst]
          exact ih _ _ m post j s hk.2 hc'
      · have hmem : (j, Event.sleep s) ∈ (i, Event.dial (v.scheme ++ target ++ v.path) b) ::
            (es.map (Prod.mk i) ++ (i, Event.spawn) :: ps.map (Prod.mk i)) := by
          rw [← h1, he]; simp
        simp only [List.mem_cons, List.mem_append] at hmem
        rcases hmem with hx | hx | hx | hx
        · simp at hx
        · exact absurd hx (hes_not es hnone)
        · simp at hx
        · exact absurd hx (hes_not ps (fun e he => supStep_of_isRelayStep e (hps e he)))

/-- C11 as stated fails, in `tun-modem.go`: (1) with cancellation signalled while
the first dial is failing (after one action), the wait of 5 seconds still
takes place before the loop returns; (2) with cancellation signalled while
the relay is running (after five actions), the pump returns, the session is
closed, and the wait of 1 second still takes place before the loop returns. -/
theorem startL3Tunnel_waits_after_cancel :
    (startL3Tunnel tunModem (fun t => decide (1 ≤ t)) (ascii "vps.example:443")
        [⟨⟨false, true, none⟩, [], fun _ => true⟩] 0 0 =
      ([(0, .dial (ascii "wss://vps.example:443/vless") false), (0, .sleep 5)], .returned) ∧
      (fun t => decide (1 ≤ t)) 1 = true) ∧
    (startL3Tunnel tunModem (fun t => decide (5 ≤ t)) (ascii "vps.example:443")
        [⟨⟨true, true, none⟩, [some [1], some [2]], fun _ => true⟩] 0 0 =
      ([(0, .dial (ascii "wss://vps.example:443/vless") true),
        (0, .wsWrite buildVLESSHandshake true), (0, .spawn),
        (0, .wsRead (some [1])), (0, .tunWrite [1] true),
        (0, .wsClose), (0, .sleep 1)], .returned) ∧
      (fun t => decide (5 ≤ t)) 6 = true) ∧
    ¬ (∀ pre post j s,
      (startL3Tunnel tunModem (fun t => decide (1 ≤ t)) (ascii "vps.example:443")
        [⟨⟨false, true, none⟩, [], fun _ => true⟩] 0 0).1 = pre ++ (j, .sleep s) :: post →
      (fun t => decide (1 ≤ t)) pre.length = false) := by
  refine ⟨⟨by decide, by decide⟩, ⟨by decide, by decide⟩, ?_⟩
  intro h
  have := h [(0, .dial (ascii "wss://vps.example:443/vless") false)] [] 0 5 (by decide)
  simp at this

/-- C11 amended: cancellation is observed at the head of a loop iteration only,
not before the wait. With cancellation permanent once signalled, in every
iteration begun with the context not cancelled: (1) a dial that returns an
error is followed by the wait of 5 seconds, and if cancellation has been
signalled by the time that wait starts, the wait is the last action and the
loop returns; (2) the return of `forwardVLESStoTUN` is followed by the close of
the session and the wait after the teardown, and if cancellation has been
signalled by the time that wait starts, the wait is the last action and the
loop returns; (3) while `forwardVLESStoTUN` has not returned the loop neither
waits nor returns; (4) in a whole run, a wait started after cancellation has
been signalled is followed by nothing, the loop returns, and there is at most
one such wait. -/
theorem startL3Tunnel_one_wait_after_cancel (v : Variant) (ctx : Nat → Bool)
    (target : GoString) (hmono : ∀ s s', s ≤ s' → ctx s = true → ctx s' = true) :
    (∀ (a : Attempt) (rest : List Attempt) (t i : Nat), ctx t = false →
      (dialVLESSWS v target a.dial).1 = .err →
      startL3Tunnel v ctx target (a :: rest) t i =
        ((dialVLESSWS v target a.dial).2.map (Prod.mk i) ++ (i, .sleep 5) ::
          (startL3Tunnel v ctx target rest
            (t + (dialVLESSWS v target a.dial).2.length + 1) (i + 1)).1,
         (startL3Tunnel v ctx target rest
            (t + (dialVLESSWS v target a.dial).2.length + 1) (i + 1)).2) ∧
      (ctx (t + (dialVLESSWS v target a.dial).2.length) = true →
        startL3Tunnel v ctx target (a :: rest) t i =
          ((dialVLESSWS v target a.dial).2.map (Prod.mk i) ++ [(i, .sleep 5)], .returned))) ∧
    (∀ (a : Attempt) (rest : List Attempt) (t i : Nat), ctx t = false →
      (dialVLESSWS v target a.dial).1 = .conn →
      (forwardVLESStoTUN ctx a.tunOk a.reads
        (t + (dialVLESSWS v target a.dial).2.length + 1) 0).2 = .returned →
      startL3Tunnel v ctx target (a :: rest) t i =
        ((dialVLESSWS v target a.dial).2.map (Prod.mk i) ++ (i, .spawn) ::
          ((forwardVLESStoTUN ctx a.tunOk a.reads
              (t + (dialVLESSWS v target a.dial).2.length + 1) 0).1.map (Prod.mk i) ++
            (i, .wsClose) :: (i, .sleep v.teardownSleep) ::
            (startL3Tunnel v ctx target rest
              (t + (dialVLESSWS v target a.dial).2.length + 1 +
                (forwardVLESStoTUN ctx a.tunOk a.reads
                  (t + (dialVLESSWS v target a.dial).2.length + 1) 0).1.length + 2)
              (i + 1)).1),
         (startL3Tunnel v ctx target rest
            (t + (dialVLESSWS v target a.dial).2.length + 1 +
              (forwardVLESStoTUN ctx a.tunOk a.reads
                (t + (dialVLESSWS v target a.dial).2.length + 1) 0).1.length + 2)
            (i + 1)).2) ∧
      (ctx (t + (dialVLESSWS v target a.dial).2.length + 1 +
          (forwardVLESStoTUN ctx a.tunOk a.reads
            (t + (dialVLESSWS v target a.dial).2.length + 1) 0).1.length + 1) = true →
        startL3Tunnel v ctx target (a :: rest) t i =
          ((dialVLESSWS v target a.dial).2.map (Prod.mk i) ++ (i, .spawn) ::
            ((forwardVLESStoTUN ctx a.tunOk a.reads
                (t + (dialVLESSWS v target a.dial).2.length + 1) 0).1.map (Prod.mk i) ++
              [(i, .wsClose), (i, .sleep v.teardownSleep)]), .returned))) ∧
    (∀ (a : Attempt) (rest : List Attempt) (t i : Nat), ctx t = false →
      (dialVLESSWS v target a.dial).1 = .conn →
      (forwardVLESStoTUN ctx a.tunOk a.reads
        (t + (dialVLESSWS v target a.dial).2.length + 1) 0).2 = .running →
      startL3Tunnel v ctx target (a :: rest) t i =
        ((dialVLESSWS v target a.dial).2.map (Prod.mk i) ++ (i, .spawn) ::
          (forwardVLESStoTUN ctx a.tunOk a.reads
            (t + (dialVLESSWS v target a.dial).2.length + 1) 0).1.map (Prod.mk i),
         .running)) ∧
    (∀ (atts : List Attempt) (pre post : List (Nat × Event)) (j s : Nat),
      (startL3Tunnel v ctx target atts 0 0).1 = pre ++ (j, .sleep s) :: post →
      ctx pre.length = true →
      post = [] ∧ (startL3Tunnel v ctx target atts 0 0).2 = .returned ∧
      (∀ pre' post' j' s',
        (startL3Tunnel v ctx target atts 0 0).1 = pre' ++ (j', .sleep s') :: post' →
        ctx pre'.length = true → pre' = pre)) := by
  refine ⟨?_, ?_, ?_, ?_⟩
  · intro a rest t i h hd
    have hunfold : startL3Tunnel v ctx target (a :: rest) t i =
        ((dialVLESSWS v target a.dial).2.map (Prod.mk i) ++ (i, .sleep 5) ::
          (startL3Tunnel v ctx target rest
            (t + (dialVLESSWS v target a.dial).2.length + 1) (i + 1)).1,
         (startL3Tunnel v ctx target rest
            (t + (dialVLESSWS v target a.dial).2.length + 1) (i + 1)).2) := by
      simp only [startL3Tunnel, h, hd, Bool.false_eq_true, if_false]
    refine ⟨hunfold, ?_⟩
    intro hc
    have hc' := hmono _ (t + (dialVLESSWS v target a.dial).2.length + 1) (Nat.le_succ _) hc
    rw [hunfold, startL3Tunnel_cancelled v ctx target rest _ (i + 1) hc']
  · intro a rest t i h hd hp
    have hunfold : startL3Tunnel v ctx target (a :: rest) t i =
        ((dialVLESSWS v target a.dial).2.map (Prod.mk i) ++ (i, .spawn) ::
          ((forwardVLESStoTUN ctx a.tunOk a.reads
              (t + (dialVLESSWS v target a.dial).2.length + 1) 0).1.map (Prod.mk i) ++
            (i, .wsClose) :: (i, .sleep v.teardownSleep) ::
            (startL3Tunnel v ctx target rest
              (t + (dialVLESSWS v target a.dial).2.length + 1 +
                (forwardVLESStoTUN ctx a.tunOk a.reads
                  (t + (dialVLESSWS v target a.dial).2.length + 1) 0).1.length + 2)
              (i + 1)).1),
         (startL3Tunnel v ctx target rest
            (t + (dialVLESSWS v target a.dial).2.length + 1 +
              (forwardVLESStoTUN ctx a.tunOk a.reads
                (t + (dialVLESSWS v target a.dial).2.length + 1) 0).1.length + 2)
            (i + 1)).2) := by
      simp only [startL3Tunnel, h, hd, hp, Bool.false_eq_true, if_false]
    refine ⟨hunfold, ?_⟩
    intro hc
    have hc' := hmono _ (t + (dialVLESSWS v target a.dial).2.length + 1 +
      (forwardVLESStoTUN ctx a.tunOk a.reads
        (t + (dialVLESSWS v target a.dial).2.length + 1) 0).1.length + 2) (Nat.le_succ _) hc
    rw [hunfold, startL3Tunnel_cancelled v ctx target rest _ (i + 1) hc']
  · intro a rest t i h hd hp
    simp only [startL3Tunnel, h, hd, hp, Bool.false_eq_true, if_false]
  · intro atts pre post j s h hc
    have hlast : ∀ pre' post' j' s',
        (startL3Tunnel v ctx target atts 0 0).1 = pre' ++ (j', .sleep s') :: post' →
        ctx pre'.length = true →
        post' = [] ∧ (startL3Tunnel v ctx target atts 0 0).2 = .returned := by
      intro pre' post' j' s' h' hc'
      exact startL3Tunnel_wait_then_head v ctx target atts 0 0 pre' post' j' s' h'
        (by simpa using hmono pre'.length (pre'.length + 1) (Nat.le_succ _) hc')
    obtain ⟨h1, h2⟩ := hlast pre post j s h hc
    refine ⟨h1, h2, ?_⟩
    intro pre' post' j' s' h' hc'
    obtain ⟨h1', -⟩ := hlast pre' post' j' s' h' hc'
    rw [h, h1, h1'] at h'
    have hl := congrArg List.length h'
    simp only [List.length_append, List.length_cons, List.length_nil] at hl
    exact (List.append_inj h' (by omega)).1.symm

/-- C11 amended on runs of `tun-modem.go`: cancelled while the first dial is
failing, the loop performs the wait of 5 seconds and returns; cancelled while
the relay is running and the pump then meets a read error, it closes the
session, performs the wait of 1 second and returns; and in the first run the
wait is the last action. -/
theorem startL3Tunnel_one_wait_after_cancel_witness :
    startL3Tunnel tunModem (fun t => decide (1 ≤ t)) (ascii "vps.example:443")
        (⟨⟨false, true, none⟩, [], fun _ => true⟩ ::
          [⟨⟨true, true, none⟩, [], fun _ => true⟩]) 0 0 =
      ((dialVLESSWS tunModem (ascii "vps.example:443") ⟨false, true, none⟩).2.map (Prod.mk 0) ++
        [(0, .sleep 5)], .returned) ∧
    (([] : List (Nat × Event)) = [] ∧
      (startL3Tunnel tunModem (fun t => decide (1 ≤ t)) (ascii "vps.example:443")
        [⟨⟨false, true, none⟩, [], fun _ => true⟩, ⟨⟨true, true, none⟩, [], fun _ => true⟩]
        0 0).2 = .returned) ∧
    startL3Tunnel tunModem (fun t => decide (5 ≤ t)) (ascii "vps.example:443")
        (⟨⟨true, true, none⟩, [some [1], some [2]], fun _ => true⟩ :: []) 0 0 =
      ([(0, .dial (ascii "wss://vps.example:443/vless") true),
        (0, .wsWrite buildVLESSHandshake true), (0, .spawn),
        (0, .wsRead (some [1])), (0, .tunWrite [1] true),
        (0, .wsClose), (0, .sleep 1)], .returned) :=
  have hmono5 : ∀ s s', s ≤ s' → (fun t => decide (5 ≤ t)) s = true →
      (fun t => decide (5 ≤ t)) s' = true := by
    intro s s' hss hs
    simp only [decide_eq_true_eq] at hs ⊢
    omega
  have h5 := (startL3Tunnel_one_wait_after_cancel tunModem (fun t => decide (5 ≤ t))
    (ascii "vps.example:443") hmono5).2.1
    ⟨⟨true, true, none⟩, [some [1], some [2]], fun _ => true⟩ [] 0 0
    (by decide) (by decide) (by decide)
  have hmono : ∀ s s', s ≤ s' → (fun t => decide (1 ≤ t)) s = true →
      (fun t => decide (1 ≤ t)) s' = true := by
    intro s s' hss hs
    simp only [decide_eq_true_eq] at hs ⊢
    omega
  have h := startL3Tunnel_one_wait_after_cancel tunModem (fun t => decide (1 ≤ t))
    (ascii "vps.example:443") hmono
  have h4 := h.2.2.2
    [⟨⟨false, true, none⟩, [], fun _ => true⟩, ⟨⟨true, true, none⟩, [], fun _ => true⟩]
    [(0, .dial (ascii "wss://vps.example:443/vless") false)] [] 0 5 (by decide) (by decide)
  ⟨(h.1 ⟨⟨false, true, none⟩, [], fun _ => true⟩ [⟨⟨true, true, none⟩, [], fun _ => true⟩]
      0 0 (by decide) (by decide)).2 (by decide),
    ⟨h4.1, h4.2.1⟩, h5.2 (by decide)⟩

/-! ## The loop never gives up -/

/-- Without cancellation the loop does not return. -/
theorem startL3Tunnel_not_returned (v : Variant) (ctx : Nat → Bool) (target : GoString)
    (hctx : ∀ t, ctx t = false) (atts : List Attempt) :
    ∀ (t i : Nat), (startL3Tunnel v ctx target atts t i).2 ≠ .returned := by
  induction atts with
  | nil =>
    intro t i
    simp [startL3Tunnel, hctx]
  | cons a rest ih =>
    intro t i
    rcases startL3Tunnel_cons v ctx target a rest t i (hctx t) with
      ⟨-, h0⟩ | ⟨b, es, -, ⟨-, hst⟩ | ⟨-, ps, -, ⟨-, hst⟩ | ⟨-, hst⟩⟩⟩
    · rw [h0]; simp
    · rw [hst]; exact ih _ _
    · rw [hst]; exact ih _ _
    · exact hst

/-- An iteration that starts with the context not cancelled and whose dial does
not panic begins with the dial call. -/
theorem startL3Tunnel_head_dial (v : Variant) (ctx : Nat → Bool) (target : GoString)
    (a : Attempt) (rest : List Attempt) (t i : Nat) (h : ctx t = false)
    (hnp : (dialVLESSWS v target a.dial).1 ≠ .panic) :
    ∃ b tl, (startL3Tunnel v ctx target (a :: rest) t i).1 =
      (i, .dial (v.scheme ++ target ++ v.path) b) :: tl := by
  rcases startL3Tunnel_cons v ctx target a rest t i h with
    ⟨h0, -⟩ | ⟨b, es, -, ⟨h1, -⟩ | ⟨-, ps, -, ⟨h1, -⟩ | ⟨h1, -⟩⟩⟩
  · exfalso
    rcases dialVLESSWS_shape v target a.dial with ⟨hp, -⟩ | ⟨-, b, es, hes, -, -⟩
    · exact hnp hp
    · cases hd : (dialVLESSWS v target a.dial).1 with
      | panic => exact hnp hd
      | err => simp [startL3Tunnel, h, hd] at h0
      | conn =>
        simp only [startL3Tunnel, h, hd, Bool.false_eq_true, if_false] at h0
        split at h0 <;> simp at h0
  · exact ⟨b, _, h1⟩
  · exact ⟨b, _, h1⟩
  · exact ⟨b, _, h1⟩

/-- The actions of `forwardVLESStoTUN` hold no supervisor step. -/
theorem supSteps_relay (i : Nat) (ps : List Event) (hps : ∀ e ∈ ps, e.isRelayStep = true) :
    supSteps (ps.map (Prod.mk i)) = [] := by
  apply List.filterMap_eq_nil_iff.mpr
  intro e he
  obtain ⟨x, hx, rfl⟩ := List.mem_map.mp he
  exact supStep_of_isRelayStep x (hps x hx)

/-- Over iterations that all fail, without cancellation, the loop runs through
them and carries on with whatever attempts follow. -/
theorem startL3Tunnel_append_of_fails (v : Variant) (ctx : Nat → Bool) (target : GoString)
    (hctx : ∀ t, ctx t = false) (atts : List Attempt)
    (hfail : ∀ a ∈ atts, a.Fails v ctx target) :
    ∀ (more : List Attempt) (t i : Nat),
      startL3Tunnel v ctx target (atts ++ more) t i =
        ((startL3Tunnel v ctx target atts t i).1 ++
          (startL3Tunnel v ctx target more
            (t + (startL3Tunnel v ctx target atts t i).1.length) (i + atts.length)).1,
         (startL3Tunnel v ctx target more
            (t + (startL3Tunnel v ctx target atts t i).1.length) (i + atts.length)).2) := by
  induction atts with
  | nil =>
    intro more t i
    simp [startL3Tunnel_nil]
  | cons a rest ih =>
    intro more t i
    have hrest : ∀ x ∈ rest, x.Fails v ctx target :=
      fun x hx => hfail x (List.mem_cons_of_mem _ hx)
    rcases hfail a (List.mem_cons_self _ _) with hd | ⟨hd, hpump⟩
    · have e1 : ∀ K : List (Nat × Event),
          t + (List.map (Prod.mk i) (dialVLESSWS v target a.dial).2 ++
            (i, Event.sleep 5) :: K).length =
          t + (dialVLESSWS v target a.dial).2.length + 1 + K.length := by
        intro K; simp; omega
      have e2 : i + (a :: rest).length = i + 1 + rest.length := by simp; omega
      simp only [List.cons_append, startL3Tunnel, hctx, Bool.false_eq_true, if_false, hd,
        List.append_eq, ih hrest, e1, e2]
      simp
    · have e1 : ∀ (P : List Event) (s : Nat) (K : List (Nat × Event)),
          t + (List.map (Prod.mk i) (dialVLESSWS v target a.dial).2 ++
            (i, Event.spawn) :: (List.map (Prod.mk i) P ++
              (i, Event.wsClose) :: (i, Event.sleep s) :: K)).length =
          t + (dialVLESSWS v target a.dial).2.length + 1 + P.length + 2 + K.length := by
        intro P s K; simp; omega
      have e2 : i + (a :: rest).length = i + 1 + rest.length := by simp; omega
      simp only [List.cons_append, startL3Tunnel, hctx, Bool.false_eq_true, if_false, hd,
        hpump, List.append_eq, ih hrest, e1, e2]
      simp

/-- The supervisor steps over iterations that all fail, without cancellation. -/
theorem supSteps_of_fails (v : Variant) (ctx : Nat → Bool) (target : GoString)
    (hctx : ∀ t, ctx t = false) (atts : List Attempt)
    (hfail : ∀ a ∈ atts, a.Fails v ctx target) :
    ∀ (t i : Nat), supSteps (startL3Tunnel v ctx target atts t i).1 =
      atts.flatMap (attemptSteps v target) := by
  induction atts with
  | nil =>
    intro t i
    simp [startL3Tunnel_nil, supSteps]
  | cons a rest ih =>
    intro t i
    have hrest : ∀ x ∈ rest, x.Fails v ctx target :=
      fun x hx => hfail x (List.mem_cons_of_mem _ hx)
    rcases hfail a (List.mem_cons_self _ _) with hd | ⟨hd, hpump⟩
    · have hnp : (dialVLESSWS v target a.dial).1 ≠ .panic := by rw [hd]; simp
      have e : ∀ K : List (Nat × Event),
          supSteps (List.map (Prod.mk i) (dialVLESSWS v target a.dial).2 ++
            (i, Event.sleep 5) :: K) = .dial :: .wait 5 :: supSteps K := by
        intro K
        rw [supSteps_append, supSteps_dial v target a.dial i hnp]
        simp [supSteps, Event.supStep]
      simp only [startL3Tunnel, hctx, Bool.false_eq_true, if_false, hd, e, ih hrest,
        List.flatMap_cons, attemptSteps]
      simp
    · have hnp : (dialVLESSWS v target a.dial).1 ≠ .panic := by rw [hd]; simp
      have e : ∀ (P : List Event) (K : List (Nat × Event)), (∀ x ∈ P, x.isRelayStep = true) →
          supSteps (List.map (Prod.mk i) (dialVLESSWS v target a.dial).2 ++
            (i, Event.spawn) :: (List.map (Prod.mk i) P ++
              (i, Event.wsClose) :: (i, Event.sleep v.teardownSleep) :: K)) =
          .dial :: .relay :: .wait v.teardownSleep :: supSteps K := by
        intro P K hP
        rw [supSteps_append, supSteps_dial v target a.dial i hnp]
        have : supSteps ((i, Event.spawn) :: (List.map (Prod.mk i) P ++
            (i, Event.wsClose) :: (i, Event.sleep v.teardownSleep) :: K)) =
            .relay :: (supSteps (List.map (Prod.mk i) P) ++
              supSteps ((i, Event.wsClose) :: (i, Event.sleep v.teardownSleep) :: K)) := by
          rw [← supSteps_append]
          simp [supSteps, Event.supStep]
        rw [this, supSteps_relay i P hP]
        simp [supSteps, Event.supStep]
      simp only [startL3Tunnel, hctx, Bool.false_eq_true, if_false, hd, hpump,
        e _ _ (forwardVLESStoTUN_steps ctx a.tunOk a.reads _ _), ih hrest,
        List.flatMap_cons, attemptSteps]
      simp

/-- An iteration whose dial returns a session on which `forwardVLESStoTUN` does not
return: the loop stays in it. -/
theorem startL3Tunnel_blocked_session (v : Variant) (ctx : Nat → Bool) (target : GoString)
    (a : Attempt) (rest : List Attempt) (t i : Nat) (h : ctx t = false)
    (hd : (dialVLESSWS v target a.dial).1 = .conn)
    (hp : (forwardVLESStoTUN ctx a.tunOk a.reads
      (t + (dialVLESSWS v target a.dial).2.length + 1) 0).2 = .running) :
    startL3Tunnel v ctx target (a :: rest) t i =
      ((dialVLESSWS v target a.dial).2.map (Prod.mk i) ++ (i, .spawn) ::
        (forwardVLESStoTUN ctx a.tunOk a.reads
          (t + (dialVLESSWS v target a.dial).2.length + 1) 0).1.map (Prod.mk i),
       .running) := by
  simp only [startL3Tunnel, h, hd, hp, Bool.false_eq_true, if_false]

/-- C12 as stated fails, in `tun-modem.go`: the relay fails in the
Device→Transport direction (the spawned pump returns at a device read error)
while `forwardVLESStoTUN` is blocked; the supervisor has not returned, but its
steps are dial and start of the pumps only: no backoff wait and no further
dial follow that failure. -/
theorem pump_failure_unnoticed :
    Attempt.RelayFails tunModem (fun _ => false) (ascii "vps.example:443")
      ⟨⟨true, true, none⟩, [], fun _ => true⟩ (fun _ => true) [none] ∧
    (startL3Tunnel tunModem (fun _ => false) (ascii "vps.example:443")
        [⟨⟨true, true, none⟩, [], fun _ => true⟩] 0 0) =
      ([(0, .dial (ascii "wss://vps.example:443/vless") true),
        (0, .wsWrite buildVLESSHandshake true), (0, .spawn)], .running) ∧
    supSteps ((startL3Tunnel tunModem (fun _ => false) (ascii "vps.example:443")
        [⟨⟨true, true, none⟩, [], fun _ => true⟩] 0 0)).1 = [.dial, .relay] ∧
    ¬ ((∀ a ∈ ([⟨⟨true, true, none⟩, [], fun _ => true⟩] : List Attempt),
        (dialVLESSWS tunModem (ascii "vps.example:443") a.dial).1 = .err ∨
        a.RelayFails tunModem (fun _ => false) (ascii "vps.example:443")
          (fun _ => true) [none]) →
      supSteps ((startL3Tunnel tunModem (fun _ => false) (ascii "vps.example:443")
        [⟨⟨true, true, none⟩, [], fun _ => true⟩] 0 0)).1 =
        ([⟨⟨true, true, none⟩, [], fun _ => true⟩] : List Attempt).flatMap
          (attemptSteps tunModem (ascii "vps.example:443"))) := by
  have hrf : Attempt.RelayFails tunModem (fun _ => false) (ascii "vps.example:443")
      ⟨⟨true, true, none⟩, [], fun _ => true⟩ (fun _ => true) [none] :=
    ⟨by decide, Or.inr (by decide)⟩
  refine ⟨hrf, by decide, by decide, ?_⟩
  intro h
  have := h (by
    intro a ha
    simp only [List.mem_singleton] at ha
    subst ha
    exact Or.inr hrf)
  revert this
  decide

/-- C12 amended: (1) `startL3Tunnel` returns only if the context is cancelled at
some moment; (2) without cancellation, over any finite sequence of iterations
each of which fails towards the supervisor (the dial returns an error, or
`forwardVLESStoTUN` returns on the session), it has not returned, its
supervisor steps are, per failure, dial then a wait of 5 seconds, or dial,
start of the pumps, then the wait after the teardown, and whatever attempt
comes next, the loop goes on with another dial call; (3) after such a
sequence, on a session on which `forwardVLESStoTUN` does not return, a failure
of the spawned `forwardTUNtoVLESS` alone changes nothing for the supervisor:
it has not returned, and its last step is the start of the pumps, with no
wait and no dial after it. -/
theorem startL3Tunnel_returns_only_on_cancel (v : Variant) (ctx : Nat → Bool)
    (target : GoString) (atts : List Attempt) :
    ((startL3Tunnel v ctx target atts 0 0).2 = .returned → ∃ t, ctx t = true) ∧
    ((∀ t, ctx t = false) → (∀ a ∈ atts, a.Fails v ctx target) →
      (startL3Tunnel v ctx target atts 0 0).2 = .running ∧
      supSteps (startL3Tunnel v ctx target atts 0 0).1 = atts.flatMap (attemptSteps v target) ∧
      ∀ (a : Attempt) (more : List Attempt), (dialVLESSWS v target a.dial).1 ≠ .panic →
        ∃ b tl, (startL3Tunnel v ctx target (atts ++ a :: more) 0 0).1 =
          (startL3Tunnel v ctx target atts 0 0).1 ++
            (atts.length, .dial (v.scheme ++ target ++ v.path) b) :: tl) ∧
    ((∀ t, ctx t = false) → (∀ a ∈ atts, a.Fails v ctx target) →
      ∀ (a : Attempt) (more : List Attempt) (wsOk : Nat → Bool)
        (devReads : List (Option (List Nat))),
        (dialVLESSWS v target a.dial).1 = .conn →
        (∀ t, (forwardVLESStoTUN ctx a.tunOk a.reads t 0).2 = .running) →
        (forwardTUNtoVLESS v ctx wsOk devReads).2 = .returned →
        (startL3Tunnel v ctx target (atts ++ a :: more) 0 0).2 = .running ∧
        supSteps (startL3Tunnel v ctx target (atts ++ a :: more) 0 0).1 =
          atts.flatMap (attemptSteps v target) ++ [.dial, .relay]) := by
  refine ⟨?_, ?_, ?_⟩
  · intro hret
    by_contra hno
    have hctx : ∀ t, ctx t = false := by
      intro t
      cases h : ctx t with
      | false => rfl
      | true => exact absurd ⟨t, h⟩ hno
    exact startL3Tunnel_not_returned v ctx target hctx atts 0 0 hret
  · intro hctx hfail
    refine ⟨?_, supSteps_of_fails v ctx target hctx atts hfail 0 0, ?_⟩
    · have := startL3Tunnel_append_of_fails v ctx target hctx atts hfail [] 0 0
      rw [List.append_nil] at this
      rw [this]
      simp [startL3Tunnel, hctx]
    · intro a more hnp
      obtain ⟨b, tl, htl⟩ := startL3Tunnel_head_dial v ctx target a more
        (0 + (startL3Tunnel v ctx target atts 0 0).1.length) (0 + atts.length) (hctx _) hnp
      refine ⟨b, tl, ?_⟩
      rw [startL3Tunnel_append_of_fails v ctx target hctx atts hfail (a :: more) 0 0]
      simp only [htl]
      simp
  · intro hctx hfail a more wsOk devReads hd hblocked _
    have hnp : (dialVLESSWS v target a.dial).1 ≠ .panic := by rw [hd]; simp
    have hb := startL3Tunnel_blocked_session v ctx target a more
      (0 + (startL3Tunnel v ctx target atts 0 0).1.length) (0 + atts.length) (hctx _) hd
      (hblocked _)
    rw [startL3Tunnel_append_of_fails v ctx target hctx atts hfail (a :: more) 0 0, hb]
    refine ⟨rfl, ?_⟩
    simp only [supSteps_append, supSteps_of_fails v ctx target hctx atts hfail 0 0,
      supSteps_dial v target a.dial _ hnp]
    have : supSteps ((0 + atts.length, Event.spawn) ::
        (forwardVLESStoTUN ctx a.tunOk a.reads
          (0 + (startL3Tunnel v ctx target atts 0 0).1.length +
            (dialVLESSWS v target a.dial).2.length + 1) 0).1.map (Prod.mk (0 + atts.length))) =
        [.relay] := by
      have hr := supSteps_relay (0 + atts.length) _
        (forwardVLESStoTUN_steps ctx a.tunOk a.reads
          (0 + (startL3Tunnel v ctx target atts 0 0).1.length +
            (dialVLESSWS v target a.dial).2.length + 1) 0)
      simp only [supSteps, List.filterMap_cons, Event.supStep] at hr ⊢
      rw [hr]
    rw [this]
    simp

/-- C12 amended in `tun-modem.go`: on a failed dial followed by a session whose
`forwardVLESStoTUN` meets a read error the loop has not returned and its steps
are dial, wait 5, dial, start of the pumps, wait 1; when a third session
follows on which `forwardVLESStoTUN` stays blocked while the spawned pump
fails at a device read, the loop has not returned and its steps end with
dial, start of the pumps. -/
theorem startL3Tunnel_returns_only_on_cancel_witness :
    ((startL3Tunnel tunModem (fun _ => false) (ascii "vps.example:443")
      [⟨⟨false, true, none⟩, [], fun _ => true⟩,
        ⟨⟨true, true, none⟩, [some [1], none], fun _ => true⟩] 0 0).2 = .running ∧
    supSteps (startL3Tunnel tunModem (fun _ => false) (ascii "vps.example:443")
      [⟨⟨false, true, none⟩, [], fun _ => true⟩,
        ⟨⟨true, true, none⟩, [some [1], none], fun _ => true⟩] 0 0).1 =
      [.dial, .wait 5, .dial, .relay, .wait 1]) ∧
    ((startL3Tunnel tunModem (fun _ => false) (ascii "vps.example:443")
      ([⟨⟨false, true, none⟩, [], fun _ => true⟩,
        ⟨⟨true, true, none⟩, [some [1], none], fun _ => true⟩] ++
        ⟨⟨true, true, none⟩, [], fun _ => true⟩ :: []) 0 0).2 = .running ∧
    supSteps (startL3Tunnel tunModem (fun _ => false) (ascii "vps.example:443")
      ([⟨⟨false, true, none⟩, [], fun _ => true⟩,
        ⟨⟨true, true, none⟩, [some [1], none], fun _ => true⟩] ++
        ⟨⟨true, true, none⟩, [], fun _ => true⟩ :: []) 0 0).1 =
      [.dial, .wait 5, .dial, .relay, .wait 1] ++ [.dial, .relay]) :=
  have hfail : ∀ a ∈ ([⟨⟨false, true, none⟩, [], fun _ => true⟩,
      ⟨⟨true, true, none⟩, [some [1], none], fun _ => true⟩] : List Attempt),
      a.Fails tunModem (fun _ => false) (ascii "vps.example:443") := by
    intro a ha
    simp only [List.mem_cons, List.mem_singleton, List.not_mem_nil, or_false] at ha
    rcases ha with rfl | rfl
    · exact Or.inl (by decide)
    · exact Or.inr ⟨by decide, fun _ => rfl⟩
  have h := startL3Tunnel_returns_only_on_cancel tunModem (fun _ => false)
    (ascii "vps.example:443")
    [⟨⟨false, true, none⟩, [], fun _ => true⟩,
      ⟨⟨true, true, none⟩, [some [1], none], fun _ => true⟩]
  have h2 := h.2.1 (fun _ => rfl) hfail
  ⟨⟨h2.1, h2.2.1⟩,
    h.2.2 (fun _ => rfl) hfail ⟨⟨true, true, none⟩, [], fun _ => true⟩ []
      (fun _ => true) [none] (by decide) (fun _ => rfl) (by decide)⟩

/-! ## The spawned pump and the session -/

/-- The only dial call in the trace of `dialVLESSWS` is on the URL made of the
scheme, the target and the path of the variant. -/
theorem dialVLESSWS_url (v : Variant) (target : GoString) (d : DialEnv) (url : GoString)
    (ok : Bool) (h : Event.dial url ok ∈ (dialVLESSWS v target d).2) :
    url = v.scheme ++ target ++ v.path := by
  rcases dialVLESSWS_shape v target d with ⟨-, he⟩ | ⟨-, b, es, hes, hnone, -⟩
  · rw [he] at h; cases h
  · rw [hes] at h
    rcases List.mem_cons.mp h with h1 | h1
    · simp only [Event.dial.injEq] at h1
      exact h1.1
    · have := hnone _ h1
      simp [Event.supStep] at this

/-- C14 as stated fails: no one path makes every program dial
`"wss://" ++ target ++ path`. `tun-e3372h-stable.go` dials
`ws://vps.example:443/tun` for the target `vps.example:443`, where
`tun-modem.go` dials `wss://vps.example:443/vless`. -/
theorem dial_url_not_one_form :
    (dialVLESSWS tunE3372hStable (ascii "vps.example:443") ⟨true, true, some []⟩).2.head? =
      some (.dial (ascii "ws://vps.example:443/tun") true) ∧
    (dialVLESSWS tunModem (ascii "vps.example:443") ⟨true, true, some []⟩).2.head? =
      some (.dial (ascii "wss://vps.example:443/vless") true) ∧
    ¬ ∃ path : GoString, ∀ v ∈ allVariants, ∀ url ok,
      Event.dial url ok ∈ (dialVLESSWS v (ascii "vps.example:443") ⟨true, true, some []⟩).2 →
      url = ascii "wss://" ++ ascii "vps.example:443" ++ path := by
  refine ⟨by decide, by decide, ?_⟩
  rintro ⟨path, h⟩
  have h1 := h tunE3372hStable (by simp [allVariants])
    (ascii "ws://vps.example:443/tun") true (by decide)
  have e1 : ascii "ws://vps.example:443/tun" =
      119 :: 115 :: 58 :: ascii "//vps.example:443/tun" := by decide
  have e2 : ascii "wss://" = [119, 115, 115, 58, 47, 47] := by decide
  rw [e1, e2] at h1
  simp at h1

/-- C14 amended: in every program `dialVLESSWS` dials scheme, then the target, then
one fixed path; scheme and path are `wss://` and `/vless` in `tun-modem`,
`tun-android` and `tun-optimized`, and `ws://` and `/tun` in
`tun-e3372h-stable`, `tun-e3372h-debug` and `tun-simple-handshake`. -/
theorem dial_url_by_variant (target : GoString) (d : DialEnv) :
    (∀ v ∈ [tunModem, tunAndroid, tunOptimized], ∀ url ok,
      Event.dial url ok ∈ (dialVLESSWS v target d).2 →
      url = ascii "wss://" ++ target ++ ascii "/vless") ∧
    (∀ v ∈ [tunE3372hStable, tunE3372hDebug, tunSimpleHandshake], ∀ url ok,
      Event.dial url ok ∈ (dialVLESSWS v target d).2 →
      url = ascii "ws://" ++ target ++ ascii "/tun") ∧
    (∀ v ∈ allVariants, v ∈ [tunModem, tunAndroid, tunOptimized] ∨
      v ∈ [tunE3372hStable, tunE3372hDebug, tunSimpleHandshake]) := by
  refine ⟨?_, ?_, ?_⟩
  · intro v hv url ok h
    have := dialVLESSWS_url v target d url ok h
    simp only [List.mem_cons, List.mem_singleton, List.not_mem_nil, or_false] at hv
    rcases hv with rfl | rfl | rfl <;> exact this
  · intro v hv url ok h
    have := dialVLESSWS_url v target d url ok h
    simp only [List.mem_cons, List.mem_singleton, List.not_mem_nil, or_false] at hv
    rcases hv with rfl | rfl | rfl <;> exact this
  · intro v hv
    simp only [allVariants, List.mem_cons, List.mem_singleton, List.not_mem_nil, or_false] at hv
    rcases hv with rfl | rfl | rfl | rfl | rfl | rfl <;> simp

/-- C14 amended for the target `vps.example:443` in `tun-android.go` and
`tun-e3372h-debug.go`. -/
theorem dial_url_by_variant_witness :
    ascii "wss://vps.example:443/vless" =
      ascii "wss://" ++ ascii "vps.example:443" ++ ascii "/vless" ∧
    ascii "ws://vps.example:443/tun" =
      ascii "ws://" ++ ascii "vps.example:443" ++ ascii "/tun" :=
  ⟨(dial_url_by_variant (ascii "vps.example:443") ⟨true, true, none⟩).1 tunAndroid
      (List.mem_cons_of_mem _ (List.mem_cons_self _ _))
      (ascii "wss://vps.example:443/vless") true (by decide),
    (dial_url_by_variant (ascii "vps.example:443") ⟨true, true, none⟩).2.1 tunE3372hDebug
      (List.mem_cons_of_mem _ (List.mem_cons_self _ _))
      (ascii "ws://vps.example:443/tun") true (by decide)⟩

/-! ## The host name cut from the argument -/

/-- Cutting `c` bytes off `host:port` leaves `host` exactly when `:port` is `c`
bytes long. -/
theorem sliceTo_host_port (host port : GoString) (c : Nat) :
    sliceTo (host ++ ascii ":" ++ port) c = some host ↔ port.length + 1 = c := by
  have hlen : (host ++ ascii ":" ++ port).length = host.length + 1 + port.length := by
    simp [ascii]; omega
  unfold sliceTo
  rw [hlen]
  constructor
  · intro h
    split at h
    · rename_i hc
      simp only [Option.some.injEq] at h
      have := congrArg List.length h
      simp only [List.length_take, hlen] at this
      omega
    · cases h
  · intro h
    subst h
    rw [if_pos (by omega)]
    congr 1
    rw [show host.length + 1 + port.length - (port.length + 1) = host.length by omega,
      List.append_assoc, List.take_left]

/-- The names `setupRouting` hands to the name service are cut with
`vpsHost[:len(vpsHost)-4]`. -/
theorem resolvedNames_setupRouting (ifName target : GoString) (env : RouteEnv) (n : GoString)
    (h : n ∈ resolvedNames (setupRouting ifName target env).2) :
    sliceTo target 4 = some n := by
  obtain ⟨newOk, resolved, hostAddOk, tunAddOk, tunUp⟩ := env
  cases hs : sliceTo target 4 <;> cases newOk <;> cases resolved <;> cases hostAddOk <;>
    simp [setupRouting, hs, resolvedNames] at h ⊢ <;> exact h.symm

/-- The names `setupAndroidRouting` hands to the name service are cut with
`vpsHost[:len(vpsHost)-4]`. -/
theorem resolvedNames_setupAndroidRouting (target : GoString) (env : RouteEnv) (n : GoString)
    (h : n ∈ resolvedNames (setupAndroidRouting target env).2) :
    sliceTo target 4 = some n := by
  obtain ⟨newOk, resolved, hostAddOk, tunAddOk, tunUp⟩ := env
  cases hs : sliceTo target 4 <;> cases resolved <;>
    simp [setupAndroidRouting, hs, resolvedNames] at h ⊢ <;> exact h.symm

/-- The names `main` of `tun-e3372h-stable.go` hands to the name service are cut
with `vpsTarget[:len(vpsTarget)-5]`. -/
theorem resolvedNames_mainE3372hStable (target : GoString) (env : RouteEnv) (n : GoString)
    (h : n ∈ resolvedNames (mainE3372hStable target env).2) :
    sliceTo target 5 = some n := by
  obtain ⟨newOk, resolved, hostAddOk, tunAddOk, tunUp⟩ := env
  cases hs : sliceTo target 5 <;> cases resolved <;> cases tunUp <;>
    simp [mainE3372hStable, hs, resolvedNames, fixE3372HRouting, addTUNRoutes] at h ⊢ <;>
    exact h.symm

/-- The names `main` of `tun-e3372h-debug.go` hands to the name service are cut
with `vpsTarget[:len(vpsTarget)-5]`. -/
theorem resolvedNames_mainE3372hDebug (target : GoString) (env : RouteEnv) (n : GoString)
    (h : n ∈ resolvedNames (mainE3372hDebug target env).2) :
    sliceTo target 5 = some n := by
  obtain ⟨newOk, resolved, hostAddOk, tunAddOk, tunUp⟩ := env
  cases hs : sliceTo target 5 <;> cases resolved <;> cases tunUp <;>
    simp [mainE3372hDebug, hs, resolvedNames, setupSimpleRouting] at h ⊢ <;>
    exact h.symm

/-- C15 as stated fails: for the argument `vps.example:8443` the programs that
cut four bytes derive `vps.example:` (server name and resolved name in
`tun-modem.go`), and for `vps.example:443` the programs that cut five bytes
resolve `vps.exampl` (`tun-e3372h-stable.go`). -/
theorem relay_host_wrong_for_other_ports :
    serverName tunModem (ascii "vps.example:8443") = some (some (ascii "vps.example:")) ∧
    resolvedNames (setupRouting (ascii "tun-l3") (ascii "vps.example:8443")
      ⟨true, some (ascii "203.0.113.7"), true, true, true⟩).2 = [ascii "vps.example:"] ∧
    resolvedNames (mainE3372hStable (ascii "vps.example:443")
      ⟨true, some (ascii "203.0.113.7"), true, true, true⟩).2 = [ascii "vps.exampl"] ∧
    ¬ (∀ p ∈ programs, ∀ port ∈ [ascii "443", ascii "8443"],
      ∀ n ∈ resolvedNames (p.routing (ascii "vps.example" ++ ascii ":" ++ port)
        ⟨true, some (ascii "203.0.113.7"), true, true, true⟩).2, n = ascii "vps.example") := by
  refine ⟨by decide, by decide, by decide, by decide⟩

/-- C15 amended: for the argument `host:port`, the name cut with
`[:len-4]` (the server name of `dialVLESSWS` in `tun-modem`, `tun-android`,
`tun-optimized`, and the name their routing set-up resolves) is `host`
exactly when the port has three bytes; the name cut with `[:len-5]` (resolved
by `main` in `tun-e3372h-stable`, `tun-simple-handshake` and
`tun-e3372h-debug`, whose `dialVLESSWS` sets no server name) is `host` exactly
when the port has four bytes. -/
theorem relay_host_iff_port_length (host port : GoString) (env : RouteEnv) :
    (∀ v ∈ [tunModem, tunAndroid, tunOptimized],
      serverName v (host ++ ascii ":" ++ port) = some (some host) ↔ port.length = 3) ∧
    (∀ v ∈ [tunE3372hStable, tunE3372hDebug, tunSimpleHandshake],
      serverName v (host ++ ascii ":" ++ port) = none) ∧
    (∀ ifName, ∀ n ∈ resolvedNames (setupRouting ifName (host ++ ascii ":" ++ port) env).2,
      n = host ↔ port.length = 3) ∧
    (∀ n ∈ resolvedNames (setupAndroidRouting (host ++ ascii ":" ++ port) env).2,
      n = host ↔ port.length = 3) ∧
    (∀ n ∈ resolvedNames (mainE3372hStable (host ++ ascii ":" ++ port) env).2,
      n = host ↔ port.length = 4) ∧
    (∀ n ∈ resolvedNames (mainE3372hDebug (host ++ ascii ":" ++ port) env).2,
      n = host ↔ port.length = 4) := by
  have key : ∀ (c : Nat) (n : GoString), sliceTo (host ++ ascii ":" ++ port) c = some n →
      (n = host ↔ port.length + 1 = c) := by
    intro c n hn
    rw [← sliceTo_host_port host port c, hn]
    simp
  refine ⟨?_, ?_, ?_, ?_, ?_, ?_⟩
  · intro v hv
    have h4 : serverName v (host ++ ascii ":" ++ port) =
        some (sliceTo (host ++ ascii ":" ++ port) 4) := by
      simp only [List.mem_cons, List.mem_singleton, List.not_mem_nil, or_false] at hv
      rcases hv with rfl | rfl | rfl <;> rfl
    rw [h4]
    simp only [Option.some.injEq]
    rw [sliceTo_host_port]
    omega
  · intro v hv
    simp only [List.mem_cons, List.mem_singleton, List.not_mem_nil, or_false] at hv
    rcases hv with rfl | rfl | rfl <;> rfl
  · intro ifName n hn
    exact (key 4 n (resolvedNames_setupRouting ifName _ env n hn)).trans (by omega)
  · intro n hn
    exact (key 4 n (resolvedNames_setupAndroidRouting _ env n hn)).trans (by omega)
  · intro n hn
    exact (key 5 n (resolvedNames_mainE3372hStable _ env n hn)).trans (by omega)
  · intro n hn
    exact (key 5 n (resolvedNames_mainE3372hDebug _ env n hn)).trans (by omega)

/-- C15 amended on `vps.example:443` (three-byte port) in `tun-modem.go` and on
`vps.example:8080` (four-byte port) in `tun-e3372h-stable.go`: the derived
name is `vps.example`. -/
theorem relay_host_iff_port_length_witness :
    serverName tunModem (ascii "vps.example" ++ ascii ":" ++ ascii "443") =
      some (some (ascii "vps.example")) ∧
    ascii "vps.example" = ascii "vps.example" :=
  ⟨((relay_host_iff_port_length (ascii "vps.example") (ascii "443")
      ⟨true, some (ascii "203.0.113.7"), true, true, true⟩).1 tunModem (List.mem_cons_self _ _)).mpr
      (by decide),
    ((relay_host_iff_port_length (ascii "vps.example") (ascii "8080")
      ⟨true, some (ascii "203.0.113.7"), true, true, true⟩).2.2.2.2.1 (ascii "vps.example")
      (by decide)).mpr (by decide)⟩

/-! ## Read deadlines -/

/-- In the loop of `handleTUNTraffic` every read comes right after a
`SetReadDeadline`, whatever preceded the loop. -/
theorem handleTUNTrafficLoop_bounded (ctx tunOk : Nat → Bool) (reads : List ConnRead) :
    ∀ (buf : List Nat) (t j : Nat) (armed : Bool),
      readsBoundedFrom armed (handleTUNTrafficLoop ctx tunOk reads buf t j).1 = true := by
  induction reads with
  | nil =>
    intro buf t j armed
    cases h : ctx t <;> simp [handleTUNTrafficLoop, h, readsBoundedFrom]
  | cons r rest ih =>
    intro buf t j armed
    cases r with
    | timeout =>
      cases h : ctx t <;> simp [handleTUNTrafficLoop, h, readsBoundedFrom, ih]
    | error =>
      cases h : ctx t <;> simp [handleTUNTrafficLoop, h, readsBoundedFrom]
    | data p =>
      cases h : ctx t <;> cases hw : tunOk j <;>
        simp [handleTUNTrafficLoop, h, hw, readsBoundedFrom, ih]

/-- A trace of `forwardVLESStoTUN` that is not empty starts with a frame read. -/
theorem forwardVLESStoTUN_head (ctx tunOk : Nat → Bool) (reads : List (Option (List Nat)))
    (t j : Nat) (h : (forwardVLESStoTUN ctx tunOk reads t j).1 ≠ []) :
    ∃ r tl, (forwardVLESStoTUN ctx tunOk reads t j).1 = .wsRead r :: tl := by
  cases reads with
  | nil => cases hc : ctx t <;> simp [forwardVLESStoTUN, hc] at h
  | cons r rest =>
    cases r with
    | none =>
      cases hc : ctx t <;> simp [forwardVLESStoTUN, hc] at h ⊢
    | some packet =>
      cases hc : ctx t <;> cases hw : tunOk j <;> simp [forwardVLESStoTUN, hc, hw] at h ⊢

/-- C17 as stated fails for `forwardVLESStoTUN`: on one frame followed by a read
error its trace is read, device write, read, with no `SetReadDeadline`
before either read. -/
theorem forwardVLESStoTUN_reads_unbounded :
    forwardVLESStoTUN (fun _ => false) (fun _ => true) [some [1], none] 0 0 =
      ([.wsRead (some [1]), .tunWrite [1] true, .wsRead none], .returned) ∧
    ¬ (readsBounded
      (forwardVLESStoTUN (fun _ => false) (fun _ => true) [some [1], none] 0 0).1 = true) := by
  decide

/-- C17 amended: in `tun-simpl.go` every read of the loop of `handleTUNTraffic` is
preceded by a `SetReadDeadline` of one second; `forwardVLESStoTUN` of the
WebSocket programs sets no read deadline at all, so every trace of it that
holds an action holds an unbounded read, the first one. -/
theorem read_deadline_only_in_tun_simpl (ctx tunOk : Nat → Bool) (reads : List ConnRead)
    (frames : List (Option (List Nat))) (buf : List Nat) (t j : Nat) :
    readsBounded (handleTUNTrafficLoop ctx tunOk reads buf t j).1 = true ∧
    (∀ e ∈ (handleTUNTrafficLoop ctx tunOk reads buf t j).1, ∀ s,
      e = .setReadDeadline s → s = 1) ∧
    (∀ e ∈ (forwardVLESStoTUN ctx tunOk frames t j).1, ∀ s, e ≠ .setReadDeadline s) ∧
    ((forwardVLESStoTUN ctx tunOk frames t j).1 ≠ [] →
      readsBounded (forwardVLESStoTUN ctx tunOk frames t j).1 = false) := by
  refine ⟨handleTUNTrafficLoop_bounded ctx tunOk reads buf t j false, ?_, ?_, ?_⟩
  · induction reads generalizing buf t j with
    | nil =>
      intro e he s hs
      cases h : ctx t <;> simp [handleTUNTrafficLoop, h] at he
      subst he
      simp only [Event.setReadDeadline.injEq] at hs
      exact hs.symm
    | cons r rest ih =>
      intro e he s hs
      subst hs
      cases r with
      | timeout =>
        cases h : ctx t <;> simp [handleTUNTrafficLoop, h] at he
        rcases he with he | he
        · exact he
        · exact ih _ _ _ _ he s rfl
      | error =>
        cases h : ctx t <;> simp [handleTUNTrafficLoop, h] at he
        exact he
      | data p =>
        cases h : ctx t <;> cases hw : tunOk j <;> simp [handleTUNTrafficLoop, h, hw] at he
        · exact he
        · rcases he with he | he
          · exact he
          · exact ih _ _ _ _ he s rfl
  · intro e he s hs
    have := forwardVLESStoTUN_steps ctx tunOk frames t j e he
    rw [hs] at this
    simp [Event.isRelayStep] at this
  · intro hne
    obtain ⟨r, tl, h⟩ := forwardVLESStoTUN_head ctx tunOk frames t j hne
    rw [h]
    simp [readsBounded, readsBoundedFrom]

/-- C17 amended on a read that times out, a read of two bytes and a read error in
`tun-simpl.go`, and on one frame in `forwardVLESStoTUN`. -/
theorem read_deadline_only_in_tun_simpl_witness :
    readsBounded (handleTUNTrafficLoop (fun _ => false) (fun _ => true)
      [.timeout, .data [1, 2], .error] (List.replicate 1500 0) 0 0).1 = true ∧
    readsBounded (forwardVLESStoTUN (fun _ => false) (fun _ => true)
      [some [1], none] 0 0).1 = false :=
  ⟨(read_deadline_only_in_tun_simpl (fun _ => false) (fun _ => true)
      [.timeout, .data [1, 2], .error] [some [1], none] (List.replicate 1500 0) 0 0).1,
    (read_deadline_only_in_tun_simpl (fun _ => false) (fun _ => true)
      [.timeout, .data [1, 2], .error] [some [1], none] (List.replicate 1500 0) 0 0).2.2.2
      (by decide)⟩

/-! ## Routes -/

/-- C18 as stated fails: `tun-e3372h-debug.go` installs the two tunnel routes
without requesting the host route of the relay's resolved address
`203.0.113.7`, or any other route through a gateway. -/
theorem debug_requests_no_host_route :
    (mainE3372hDebug (ascii "vps.example:8080")
      ⟨true, some (ascii "203.0.113.7"), true, true, true⟩) =
      (.ok, [.resolve (ascii "vps.example"),
        .addDev [ascii "0.0.0.0/1"] (ascii "tun-e3372h"),
        .addDev [ascii "128.0.0.0/1"] (ascii "tun-e3372h")]) ∧
    ¬ (∀ p ∈ programs, hostRouteFirst (ascii "203.0.113.7")
      (p.routing (ascii "vps.example:8080")
        ⟨true, some (ascii "203.0.113.7"), true, true, true⟩).2 = true) := by
  decide

/-- The request of `setupRouting` for a route to `vpsIP/32` is the host route of
`vpsIP`. -/
theorem isHostRouteFor_mask (vpsIP via : GoString) :
    (RouteOp.addVia (vpsIP ++ ascii "/32") via).isHostRouteFor vpsIP = true := by
  simp [RouteOp.isHostRouteFor]

/-- The request for a route to `vpsIP` through a gateway is the host route of `vpsIP`. -/
theorem isHostRouteFor_plain (vpsIP via : GoString) :
    (RouteOp.addVia vpsIP via).isHostRouteFor vpsIP = true := by
  simp [RouteOp.isHostRouteFor]

/-- C18 amended: in `tun-modem`, `tun-optimized` (`setupRouting`), `tun-android`
(`setupAndroidRouting`), `tun-e3372h-stable` and `tun-simple-handshake`
(`main`), every tunnel route comes after the request of the host route whose
destination is the address the relay's name resolved to (`vpsIP`, or
`vpsIP/32`); when the name does not resolve no program installs a tunnel
route; the tunnel routes of every program are `0.0.0.0/1` and `128.0.0.0/1`;
`tun-e3372h-debug` (fifth in the list of programs) requests no route through
a gateway at all; and in `setupRouting`, when adding the host route does not
succeed, the function does not return `nil` and no tunnel route is in its
trace: it returns the error right after the failed request. -/
theorem host_route_first_except_debug (target : GoString) (env : RouteEnv) :
    (∀ k p vpsIP, k ≠ 4 → programs.get? k = some p → env.resolved = some vpsIP →
      hostRouteFirst vpsIP (p.routing target env).2 = true) ∧
    (∀ p ∈ programs, env.resolved = none → tunDests (p.routing target env).2 = []) ∧
    (∀ p ∈ programs, ∀ dest ∈ tunDests (p.routing target env).2, dest ∈ tunRouteTexts) ∧
    ((programs.get? 4).map (fun p => p.routing target env) =
        some (mainE3372hDebug target env) ∧
      ∀ op ∈ (mainE3372hDebug target env).2, ∀ dest via, op ≠ .addVia dest via) ∧
    (∀ ifName, env.hostAddOk = false →
      (setupRouting ifName target env).1 ≠ .ok ∧
      tunDests (setupRouting ifName target env).2 = [] ∧
      (∀ host vpsIP, env.newOk = true → sliceTo target 4 = some host →
        env.resolved = some vpsIP →
        setupRouting ifName target env =
          (.err, [.newHandle, .resolve host,
            .addVia (vpsIP ++ ascii "/32") (ascii "192.168.1.1")]))) := by
  obtain ⟨newOk, resolved, hostAddOk, tunAddOk, tunUp⟩ := env
  have h1 : ∀ ifName vpsIP, resolved = some vpsIP → hostRouteFirst vpsIP
      (setupRouting ifName target ⟨newOk, resolved, hostAddOk, tunAddOk, tunUp⟩).2 = true := by
    intro ifName vpsIP hr
    subst hr
    cases hs : sliceTo target 4 <;> cases newOk <;> cases hostAddOk <;>
      simp [setupRouting, hs, hostRouteFirst, hostRouteFirstFrom, isHostRouteFor_mask]
  have h2 : ∀ vpsIP, resolved = some vpsIP → hostRouteFirst vpsIP
      (setupAndroidRouting target ⟨newOk, resolved, hostAddOk, tunAddOk, tunUp⟩).2 = true := by
    intro vpsIP hr
    subst hr
    cases hs : sliceTo target 4 <;>
      simp [setupAndroidRouting, hs, hostRouteFirst, hostRouteFirstFrom, isHostRouteFor_plain]
  have h3 : ∀ vpsIP, resolved = some vpsIP → hostRouteFirst vpsIP
      (mainE3372hStable target ⟨newOk, resolved, hostAddOk, tunAddOk, tunUp⟩).2 = true := by
    intro vpsIP hr
    subst hr
    cases hs : sliceTo target 5 <;> cases tunUp <;>
      simp [mainE3372hStable, hs, hostRouteFirst, hostRouteFirstFrom, fixE3372HRouting,
        addTUNRoutes, isHostRouteFor_plain]
  have d1 : ∀ ifName, tunDests
      (setupRouting ifName target ⟨newOk, resolved, hostAddOk, tunAddOk, tunUp⟩).2 = [] ∨
      tunDests (setupRouting ifName target ⟨newOk, resolved, hostAddOk, tunAddOk, tunUp⟩).2 =
        tunRouteTexts := by
    intro ifName
    cases hs : sliceTo target 4 <;> cases newOk <;> cases resolved <;> cases hostAddOk <;>
      simp [setupRouting, hs, tunDests]
  have d2 : tunDests
      (setupAndroidRouting target ⟨newOk, resolved, hostAddOk, tunAddOk, tunUp⟩).2 = [] ∨
      tunDests (setupAndroidRouting target ⟨newOk, resolved, hostAddOk, tunAddOk, tunUp⟩).2 =
        tunRouteTexts := by
    cases hs : sliceTo target 4 <;> cases resolved <;>
      simp [setupAndroidRouting, hs, tunDests, tunRouteTexts]
  have d3 : tunDests
      (mainE3372hStable target ⟨newOk, resolved, hostAddOk, tunAddOk, tunUp⟩).2 = [] ∨
      tunDests (mainE3372hStable target ⟨newOk, resolved, hostAddOk, tunAddOk, tunUp⟩).2 =
        tunRouteTexts := by
    cases hs : sliceTo target 5 <;> cases resolved <;> cases tunUp <;>
      simp [mainE3372hStable, hs, tunDests, tunRouteTexts, fixE3372HRouting, addTUNRoutes]
  have d4 : tunDests
      (mainE3372hDebug target ⟨newOk, resolved, hostAddOk, tunAddOk, tunUp⟩).2 = [] ∨
      tunDests (mainE3372hDebug target ⟨newOk, resolved, hostAddOk, tunAddOk, tunUp⟩).2 =
        tunRouteTexts := by
    cases hs : sliceTo target 5 <;> cases resolved <;> cases tunUp <;>
      simp [mainE3372hDebug, hs, tunDests, tunRouteTexts, setupSimpleRouting]
  have dall : ∀ p ∈ programs,
      tunDests (p.routing target ⟨newOk, resolved, hostAddOk, tunAddOk, tunUp⟩).2 = [] ∨
      tunDests (p.routing target ⟨newOk, resolved, hostAddOk, tunAddOk, tunUp⟩).2 =
        tunRouteTexts := by
    intro p hp
    simp only [programs, List.mem_cons, List.mem_singleton, List.not_mem_nil, or_false] at hp
    rcases hp with rfl | rfl | rfl | rfl | rfl | rfl
    · exact d1 _
    · exact d3
    · exact d2
    · exact d1 _
    · exact d4
    · exact d3
  refine ⟨?_, ?_, ?_, ⟨rfl, ?_⟩, ?_⟩
  · intro k p vpsIP hk hp hr
    simp only at hr
    match k, hk, hp with
    | 0, _, hp =>
      simp only [programs, List.get?, Option.some.injEq] at hp; subst hp; exact h1 _ _ hr
    | 1, _, hp =>
      simp only [programs, List.get?, Option.some.injEq] at hp; subst hp; exact h3 _ hr
    | 2, _, hp =>
      simp only [programs, List.get?, Option.some.injEq] at hp; subst hp; exact h2 _ hr
    | 3, _, hp =>
      simp only [programs, List.get?, Option.some.injEq] at hp; subst hp; exact h1 _ _ hr
    | 4, hk, _ => exact absurd rfl hk
    | 5, _, hp =>
      simp only [programs, List.get?, Option.some.injEq] at hp; subst hp; exact h3 _ hr
    | k + 6, _, hp => simp [programs] at hp
  · intro p hp hr
    simp only at hr
    subst hr
    simp only [programs, List.mem_cons, List.mem_singleton, List.not_mem_nil, or_false] at hp
    rcases hp with rfl | rfl | rfl | rfl | rfl | rfl
    · cases hs : sliceTo target 4 <;> cases newOk <;> simp [setupRouting, hs, tunDests]
    · cases hs : sliceTo target 5 <;> simp [mainE3372hStable, hs, tunDests]
    · cases hs : sliceTo target 4 <;> simp [setupAndroidRouting, hs, tunDests]
    · cases hs : sliceTo target 4 <;> cases newOk <;> simp [setupRouting, hs, tunDests]
    · cases hs : sliceTo target 5 <;> simp [mainE3372hDebug, hs, tunDests]
    · cases hs : sliceTo target 5 <;> simp [mainE3372hStable, hs, tunDests]
  · intro p hp dest hd
    rcases dall p hp with h | h
    · rw [h] at hd; cases hd
    · rw [h] at hd; exact hd
  · intro op hop dest via hx
    subst hx
    cases hs : sliceTo target 5 <;> cases resolved <;> cases tunUp <;>
      simp [mainE3372hDebug, hs, setupSimpleRouting] at hop
  · intro ifName hfail
    simp only at hfail
    subst hfail
    refine ⟨?_, ?_, ?_⟩
    · cases hs : sliceTo target 4 <;> cases newOk <;> cases resolved <;>
        simp [setupRouting, hs]
    · cases hs : sliceTo target 4 <;> cases newOk <;> cases resolved <;>
        simp [setupRouting, hs, tunDests]
    · intro host vpsIP hn hs hr
      simp only at hn hr
      subst hn hr
      simp [setupRouting, hs]

/-- C18 amended on `vps.example:443` resolving to `203.0.113.7`: in `tun-android`
the host route of `203.0.113.7` comes before the tunnel routes, and
`setupRouting` of `tun-modem`, its host route refused, returns the error with
no tunnel route requested. -/
theorem host_route_first_except_debug_witness :
    hostRouteFirst (ascii "203.0.113.7") (setupAndroidRouting (ascii "vps.example:443")
      ⟨true, some (ascii "203.0.113.7"), true, true, true⟩).2 = true ∧
    (setupRouting (ascii "tun-l3") (ascii "vps.example:443")
      ⟨true, some (ascii "203.0.113.7"), false, true, true⟩).1 ≠ .ok ∧
    tunDests (setupRouting (ascii "tun-l3") (ascii "vps.example:443")
      ⟨true, some (ascii "203.0.113.7"), false, true, true⟩).2 = [] :=
  ⟨(host_route_first_except_debug (ascii "vps.example:443")
      ⟨true, some (ascii "203.0.113.7"), true, true, true⟩).1 2 ⟨tunAndroid, setupAndroidRouting⟩
      (ascii "203.0.113.7") (by decide) rfl rfl,
    ((host_route_first_except_debug (ascii "vps.example:443")
      ⟨true, some (ascii "203.0.113.7"), false, true, true⟩).2.2.2.2 (ascii "tun-l3") rfl).1,
    ((host_route_first_except_debug (ascii "vps.example:443")
      ⟨true, some (ascii "203.0.113.7"), false, true, true⟩).2.2.2.2 (ascii "tun-l3") rfl).2.1⟩

/-- C19: the two tunnel routes read as `0.0.0.0/1` (address 0, one bit) and
`128.0.0.0/1` (address 2^31, one bit); with every outcome favourable each
program routes exactly these two destinations through the tunnel device;
every 32-bit address lies in exactly one of the two and in `0.0.0.0/0`; each
half has a longer mask than `0.0.0.0/0` and misses addresses of it. -/
theorem tun_routes_split_default :
    tunRouteTexts.map parseCidr = [some ⟨0, 1⟩, some ⟨2147483648, 1⟩] ∧
    parseCidr (ascii "0.0.0.0/0") = some ⟨0, 0⟩ ∧
    (∀ p ∈ programs, tunDests (p.routing (ascii "vps.example:8080")
      ⟨true, some (ascii "203.0.113.7"), true, true, true⟩).2 = tunRouteTexts) ∧
    (∀ ip, ip < 2 ^ 32 →
      ((Cidr.contains ⟨0, 1⟩ ip = true ∧ Cidr.contains ⟨2147483648, 1⟩ ip = false) ∨
        (Cidr.contains ⟨0, 1⟩ ip = false ∧ Cidr.contains ⟨2147483648, 1⟩ ip = true)) ∧
      Cidr.contains ⟨0, 0⟩ ip = true ∧
      (Cidr.contains ⟨0, 1⟩ ip = true ↔ ip < 2 ^ 31) ∧
      (Cidr.contains ⟨2147483648, 1⟩ ip = true ↔ 2 ^ 31 ≤ ip)) ∧
    (Cidr.bits ⟨0, 0⟩ < Cidr.bits ⟨0, 1⟩ ∧ Cidr.bits ⟨0, 0⟩ < Cidr.bits ⟨2147483648, 1⟩) ∧
    (Cidr.contains ⟨0, 0⟩ 2147483648 = true ∧ Cidr.contains ⟨0, 1⟩ 2147483648 = false) ∧
    (Cidr.contains ⟨0, 0⟩ 0 = true ∧ Cidr.contains ⟨2147483648, 1⟩ 0 = false) := by
  refine ⟨by decide, by decide, by decide, ?_, by decide, by decide, by decide⟩
  intro ip hip
  simp only [Cidr.contains, decide_eq_true_eq, decide_eq_false_iff_not]
  norm_num
  omega

/-- C19 at the addresses 10.0.0.1 and 192.168.1.1: the first lies in `0.0.0.0/1`
only, the second in `128.0.0.0/1` only. -/
theorem tun_routes_split_default_witness :
    (((Cidr.contains ⟨0, 1⟩ 167772161 = true ∧ Cidr.contains ⟨2147483648, 1⟩ 167772161 = false) ∨
        (Cidr.contains ⟨0, 1⟩ 167772161 = false ∧
          Cidr.contains ⟨2147483648, 1⟩ 167772161 = true)) ∧
      Cidr.contains ⟨0, 0⟩ 167772161 = true ∧
      (Cidr.contains ⟨0, 1⟩ 167772161 = true ↔ 167772161 < 2 ^ 31) ∧
      (Cidr.contains ⟨2147483648, 1⟩ 167772161 = true ↔ 2 ^ 31 ≤ 167772161)) ∧
    (Cidr.contains ⟨2147483648, 1⟩ 3232235777 = true ↔ 2 ^ 31 ≤ 3232235777) :=
  ⟨tun_routes_split_default.2.2.2.1 167772161 (by decide),
    (tun_routes_split_default.2.2.2.1 3232235777 (by decide)).2.2.2⟩

/-! ## The slice expression -/

/-- C20: the expression `target[:len(target)-4]` has a value exactly when the
target has at least 4 bytes; the value is then the target without its last
four bytes, of length `len(target)-4`. On a shorter target the expression
panics: `dialVLESSWS` (in the programs that set the server name) and
`setupAndroidRouting` panic with no action at all, and `setupRouting`,
having only created its handle with `route.New()`, panics before any name is
resolved and any route is changed (or returns the error of `route.New()`). -/
theorem host_slice_defined_iff (target : GoString) :
    ((sliceTo target 4).isSome = true ↔ 4 ≤ target.length) ∧
    (4 ≤ target.length → ∃ host last, sliceTo target 4 = some host ∧
      target = host ++ last ∧ last.length = 4 ∧ host.length = target.length - 4) ∧
    (target.length < 4 →
      sliceTo target 4 = none ∧
      (∀ v ∈ [tunModem, tunAndroid, tunOptimized], ∀ d,
        dialVLESSWS v target d = (.panic, [])) ∧
      (∀ env, setupAndroidRouting target env = (.panic, [])) ∧
      (∀ ifName env, setupRouting ifName target env =
          (if env.newOk then .panic else .err, [.newHandle]) ∧
        ∀ op ∈ (setupRouting ifName target env).2, op.touchesNetwork = false)) := by
  refine ⟨?_, ?_, ?_⟩
  · unfold sliceTo
    split <;> simp [*]
  · intro h
    refine ⟨target.take (target.length - 4), target.drop (target.length - 4), ?_, ?_, ?_, ?_⟩
    · simp [sliceTo, h]
    · exact (List.take_append_drop _ _).symm
    · simp; omega
    · simp
  · intro h
    have hs : sliceTo target 4 = none := by
      simp [sliceTo]; omega
    refine ⟨hs, ?_, ?_, ?_⟩
    · intro v hv d
      simp only [List.mem_cons, List.mem_singleton, List.not_mem_nil, or_false] at hv
      rcases hv with rfl | rfl | rfl <;> simp [dialVLESSWS, tunModem, tunAndroid, tunOptimized, hs]
    · intro env
      simp [setupAndroidRouting, hs]
    · intro ifName env
      have he : setupRouting ifName target env =
          (if env.newOk then .panic else .err, [.newHandle]) := by
        cases hn : env.newOk <;> simp [setupRouting, hs, hn]
      refine ⟨he, ?_⟩
      intro op hop
      rw [he] at hop
      simp only [List.mem_singleton] at hop
      subst hop
      rfl

/-- C20 on the targets `vps.example:443` and `a:1`. -/
theorem host_slice_defined_iff_witness :
    (∃ host last, sliceTo (ascii "vps.example:443") 4 = some host ∧
      ascii "vps.example:443" = host ++ last ∧ last.length = 4 ∧
      host.length = (ascii "vps.example:443").length - 4) ∧
    dialVLESSWS tunModem (ascii "a:1") ⟨true, true, none⟩ = (.panic, []) ∧
    setupRouting (ascii "tun-l3") (ascii "a:1") ⟨true, some (ascii "203.0.113.7"), true, true, true⟩ =
      (.panic, [.newHandle]) :=
  ⟨(host_slice_defined_iff (ascii "vps.example:443")).2.1 (by decide),
    ((host_slice_defined_iff (ascii "a:1")).2.2 (by decide)).2.1 tunModem
      (List.mem_cons_self _ _) ⟨true, true, none⟩,
    ((((host_slice_defined_iff (ascii "a:1")).2.2 (by decide)).2.2.2 (ascii "tun-l3")
      ⟨true, some (ascii "203.0.113.7"), true, true, true⟩).1)⟩

end Tun
